import Mathlib

/-!
# Viewport navigation, command menu and menu widget of the editor

A shallow embedding of `Editor.GoTo`, `Editor.GoToLineNumber` and
`Editor.GoToLineNumberAndCol` (src/v2/jumpto.go), of the `Actions` type and
the command menu (src/command.go, src/v2/cmenu.go), of the highlight movement
and the selection of the menu widget (src/menuwidget.go), of the paging of
the scrollable text box (src/v2/pages.go), of the strings of the editor modes
(the vendored mode package), of the last-command file (src/command.go) and of
the last-command and clear-locks flags of `main` (src/v2/main.go).

Go's `int` and `LineIndex` values are line and row counts of a text file held
in memory; they are embedded as unbounded integers.

Functions that `GoTo` calls but whose bodies are in other files of the
repository (`Len`, `DataY`, `FirstScreenPosition`, `SetX`, `ClearAll`,
`Center`, `LineNumber.LineIndex`) are either fields of the state or small
definitions with a doc comment saying where they come from.
-/

namespace Red

/-- Canvas of the terminal package, reduced to the one thing GoTo reads from
it: the height in rows, an unsigned number. -/
structure Canvas where
  height : Nat

/-- Status bar, reduced to its pending messages. -/
structure StatusBar where
  messages : List String

/-- Position of the cursor: screen column, screen row, and the index of the
first line drawn on screen (field `pos` of the editor). -/
structure Position where
  sx : Int
  sy : Int
  offsetY : Int

/-- Editor state as far as GoTo reads or writes it.
`lineCount` is the number `e.Len()` returns and `firstScreenPosition` the
column `e.FirstScreenPosition` returns for a line index; both are computed
from the lines of the buffer, which GoTo never changes. -/
structure Editor where
  pos : Position
  redrawCursor : Bool
  lineCount : Int
  firstScreenPosition : Int → Int

/-- Modelled from the spec: the body of `Editor.Len` is in another file; it is
the length of the line buffer. -/
def Editor.Len (e : Editor) : Int := e.lineCount

/-- Modelled from the spec: the body of `Editor.DataY` is in another file; the
spec says the logical line under the cursor equals `offsetY + screenY`. -/
def Editor.DataY (e : Editor) : Int := e.pos.offsetY + e.pos.sy

/-- Modelled from the spec: the body of `Position.SetX` is in another file; it
places the cursor horizontally and does not touch `sy` or `offsetY`. -/
def Position.SetX (p : Position) (_c : Option Canvas) (x : Int) : Position :=
  { p with sx := x }

/-- Modelled from the spec: the body of `StatusBar.ClearAll` is in another
file; the spec says GoTo clears any pending status-bar messages. -/
def StatusBar.ClearAll (_sb : StatusBar) (_c : Option Canvas) : StatusBar :=
  ⟨[]⟩

/-- Terminal height used by GoTo: 25 without a canvas, else the canvas
height (lines 65 to 69). -/
def termHeight (c : Option Canvas) : Int :=
  match c with
  | none => 25
  | some cv => (cv.height : Int)

/-- Out-of-bounds check of GoTo (lines 56 to 63): the line index that is
used from then on, and whether the end was reached. -/
def boundsCheck (e : Editor) (dataY : Int) : Int × Bool :=
  if dataY < 0 then (0, false)
  else if dataY ≥ e.Len then (e.Len - 1, true)
  else (dataY, false)

/-- Vertical placement of GoTo (lines 71 to 103), for the line index `dataY`
that passed the bounds check. -/
def scrollTo (e : Editor) (dataY : Int) (reachedTheEnd : Bool) (h : Int) : Position :=
  let topY := e.pos.offsetY
  let botY := e.pos.offsetY + h
  if dataY ≥ topY ∧ dataY < botY then
    let sy := dataY - e.pos.offsetY
    { e.pos with sy := if sy < 0 then 0 else sy }
  else if dataY < h then
    let sy := dataY
    { e.pos with offsetY := 0, sy := if sy < 0 then 0 else sy }
  else if reachedTheEnd then
    { e.pos with offsetY := e.Len - h, sy := h - 1 }
  else
    let prevY := e.pos.sy
    let lessJumpY := prevY
    let lessJumpOffset := dataY - prevY
    if lessJumpY + lessJumpOffset < e.Len then
      { e.pos with sy := lessJumpY, offsetY := lessJumpOffset }
    else
      { e.pos with sy := 0, offsetY := dataY }

/-- What GoTo leaves behind: the editor, the status bar, and the two returned
booleans (redraw, end reached). -/
structure GoToResult where
  editor : Editor
  status : Option StatusBar
  redraw : Bool
  reachedTheEnd : Bool

/-- The function `Editor.GoTo` (lines 51 to 118). -/
def Editor.GoTo (e : Editor) (dataY : Int) (c : Option Canvas)
    (status : Option StatusBar) : GoToResult :=
  if dataY = e.DataY then
    ⟨e, status, true, false⟩
  else
    let b := boundsCheck e dataY
    let h := termHeight c
    let e1 : Editor := { e with pos := scrollTo e b.1 b.2 h }
    let e2 : Editor :=
      { e1 with pos := e1.pos.SetX c (e1.firstScreenPosition e1.DataY) }
    let status1 := status.map (fun sb => sb.ClearAll c)
    let e3 : Editor := { e2 with redrawCursor := true }
    ⟨e3, status1, true, b.2⟩

/-- Modelled from the spec: the body of `LineNumber.LineIndex` is in another
file; line numbers count from 1 and line indices from 0. -/
def LineNumber.LineIndex (lineNumber : Int) : Int := lineNumber - 1

/-- The function `Editor.GoToLineNumber` (lines 121 to 130). `Center`, whose
body is in another file, is the parameter `centerFn`. -/
def Editor.GoToLineNumber (centerFn : Editor → Option Canvas → Editor) (e : Editor)
    (lineNumber : Int) (c : Option Canvas) (status : Option StatusBar)
    (center : Bool) : GoToResult :=
  let lineNumber := if lineNumber < 1 then 1 else lineNumber
  let r := e.GoTo (LineNumber.LineIndex lineNumber) c status
  if r.redraw && center then
    { r with editor := centerFn r.editor c }
  else
    r

/-- The value of a target line clamped into the range of valid line indices:
0 below the range, `len - 1` at or above `len`, else the target itself. -/
def clampLine (len t : Int) : Int :=
  if t < 0 then 0 else if t ≥ len then len - 1 else t

/-- An editor standing at the given viewport, for a buffer of `len` lines
whose lines all start in column 0. -/
def editorAt (offsetY sy len : Int) (redrawCursor : Bool) : Editor :=
  ⟨⟨0, sy, offsetY⟩, redrawCursor, len, fun _ => 0⟩

/-! # Jump to a line and a column (src/v2/jumpto.go) -/

/-- Modelled from the spec: the body of `ColNumber.ColIndex` is in another
file; column numbers count from 1 and column indices from 0. -/
def ColNumber.ColIndex (colNumber : Int) : Int := colNumber - 1

/-- The Go call `strings.Count(s, "\t")`: the number of tab characters. -/
def countTabs (s : String) : Int := (s.data.filter (fun ch => ch == '\t')).length

/-- The function `Editor.GoToLineNumberAndCol` (lines 133 to 158). `e.Line`,
`e.indentation.PerTab` and `Center`, which live in other files, are the
parameters `lineText`, `perTab` and `centerFn`. -/
def Editor.GoToLineNumberAndCol (centerFn : Editor → Option Canvas → Editor)
    (lineText : Int → String) (perTab : Int) (e : Editor)
    (lineNumber colNumber : Int) (c : Option Canvas) (status : Option StatusBar)
    (center : Bool) : GoToResult :=
  let colNumber := if colNumber < 1 then 1 else colNumber
  let lineNumber := if lineNumber < 1 then 1 else lineNumber
  let xIndex := ColNumber.ColIndex colNumber
  let yIndex := LineNumber.LineIndex lineNumber
  let r := e.GoTo yIndex c status
  let tabs := countTabs (lineText yIndex)
  let newScreenX := xIndex + tabs * (perTab - 1)
  let redraw := if r.editor.pos.sx ≠ newScreenX then true else r.redraw
  let e1 : Editor := { r.editor with pos := { r.editor.pos with sx := newScreenX } }
  let e2 : Editor := if redraw && center then centerFn e1 c else e1
  { r with editor := e2, redraw := redraw }

/-- On-screen width of the part of a line that precedes the 1-based column
`col`: a tab character counts `perTab` cells, any other character one. -/
def screenWidthBefore (perTab : Int) (line : String) (col : Int) : Int :=
  ((line.data.take (col - 1).toNat).map (fun ch => if ch = '\t' then perTab else 1)).sum

/-! # Go maps -/

/-- Go map with `int` keys, as the list of its entries; the order of the list
is the order in which a `range` loop visits them. -/
abbrev GoMap (α : Type) := List (Int × α)

/-- The Go expression `m[k]` with its presence flag. -/
def GoMap.get {α : Type} (m : GoMap α) (k : Int) : Option α :=
  (m.find? (fun p => p.1 == k)).map (fun p => p.2)

/-- The Go call `delete(m, k)`. -/
def GoMap.delete {α : Type} (m : GoMap α) (k : Int) : GoMap α :=
  m.filter (fun p => p.1 != k)

/-- The Go assignment `m[k] = v`. -/
def GoMap.set {α : Type} (m : GoMap α) (k : Int) (v : α) : GoMap α :=
  (k, v) :: GoMap.delete m k

/-- The Go call `len(m)`. -/
def GoMap.len {α : Type} (m : GoMap α) : Int := m.length

/-- Keys of a map, in iteration order. -/
def GoMap.keys {α : Type} (m : GoMap α) : List Int := m.map (fun p => p.1)

/-! # The action "Delete the rest of the file" (src/v2/cmenu.go) -/

/-- The part of the editor, and of what the actions of the command menu work
on, that the code embedded here reads or writes: the line map, the cursor
position, the changed and redraw flags, the undo snapshots taken so far
(newest first) and how often the portal was closed. -/
structure MenuState where
  lines : GoMap String
  pos : Position
  changed : Bool
  redraw : Bool
  redrawCursor : Bool
  snapshots : List (GoMap String × Position)
  portalClosed : Nat

/-- Modelled from the spec: `undo.Snapshot(e)` lives in another file; the spec
says a snapshot is a full copy of the line buffer, the cursor and the scroll
offset as they are at the moment of the call. -/
def MenuState.Snapshot (e : MenuState) : MenuState :=
  { e with snapshots := (e.lines, e.pos) :: e.snapshots }

/-- The local closure `prepareFunction` (lines 286 to 293): snapshot, close
the portal, mark the file as changed. -/
def prepareFunction (e : MenuState) : MenuState :=
  let e1 := e.Snapshot
  let e2 := { e1 with portalClosed := e1.portalClosed + 1 }
  { e2 with changed := true }

/-- One pass of the body of the `range e.lines` loop (lines 299 to 306), on
the editor and the variable `prepareFunction` (true while it is not nil). -/
def deleteRestStep (currentLineIndex : Int) (s : MenuState × Bool) (y : Int) :
    MenuState × Bool :=
  if y ≥ currentLineIndex then
    let s1 : MenuState × Bool := if s.2 then (prepareFunction s.1, false) else s
    ({ s1.1 with lines := GoMap.delete s1.1.lines y }, s1.2)
  else s

/-- The deletion loop (lines 298 to 307): the keys of the map are visited
once each, in the order of the map. -/
def deleteRestLoop (currentLineIndex : Int) (e : MenuState) : MenuState × Bool :=
  (GoMap.keys e.lines).foldl (deleteRestStep currentLineIndex) (e, true)

/-- The action "Delete the rest of the file" (lines 284 to 314).
`MakeConsistent`, whose body is in another file, is a parameter. -/
def deleteRestOfFile (makeConsistent : GoMap String → GoMap String) (e : MenuState) :
    MenuState :=
  let currentLineIndex := e.pos.offsetY + e.pos.sy
  let e1 := (deleteRestLoop currentLineIndex e).1
  if e1.changed then
    { e1 with lines := makeConsistent e1.lines, redraw := true, redrawCursor := true }
  else e1

/-- A buffer of five lines a to e under the keys 0 to 4, the cursor on the
line with the given index, nothing changed and no snapshot taken yet. -/
def fiveLines (cursorLine : Int) : MenuState :=
  ⟨[(0, "a"), (1, "b"), (2, "c"), (3, "d"), (4, "e")], ⟨0, cursorLine, 0⟩,
    false, false, false, [], 0⟩

/-! # Menu actions (src/command.go and src/v2/cmenu.go) -/

/-- Actions of the command menu: titles and functions under the same keys. -/
structure Actions (F : Type) where
  actionTitles : GoMap String
  actionFunctions : GoMap F

/-- The function `NewActions`. -/
def NewActions {F : Type} : Actions F := ⟨[], []⟩

/-- Result of a Go function that returns a value and an error and may also
stop with a run-time panic. -/
inductive GoResult (α : Type) where
  | ok : α → GoResult α
  | err : String → GoResult α
  | panic : GoResult α

/-- The `range actionTitles` loop of NewActions2 (lines 62 to 65), from index
`i` on; `none` is the panic of an index outside `actionFunctions`. -/
def NewActions2.loop {F : Type} (actionFunctions : List F) :
    Nat → List String → Actions F → Option (Actions F)
  | _, [], a => some a
  | i, title :: rest, a =>
    match actionFunctions[i]? with
    | none => none
    | some f =>
      NewActions2.loop actionFunctions (i + 1) rest
        ⟨GoMap.set a.actionTitles i title, GoMap.set a.actionFunctions i f⟩

/-- The function `NewActions2` (command.go lines 57 to 67). -/
def NewActions2 {F : Type} (actionTitles : List String) (actionFunctions : List F) :
    GoResult (Actions F) :=
  let a : Actions F := NewActions
  if actionTitles.length ≠ actionFunctions.length then
    GoResult.err "length of action titles and action functions differ"
  else
    match NewActions2.loop actionFunctions 0 actionTitles a with
    | some a1 => GoResult.ok a1
    | none => GoResult.panic

/-- The method `Actions.Add`. -/
def Actions.Add {F : Type} (a : Actions F) (title : String) (f : F) : Actions F :=
  let i := GoMap.len a.actionTitles
  ⟨GoMap.set a.actionTitles i title, GoMap.set a.actionFunctions i f⟩

/-- The Go call `fmt.Sprintf("[%d] %s", i, description)`. -/
def menuChoiceText (i : Int) (description : String) : String :=
  "[" ++ toString i ++ "] " ++ description

/-- The loop of MenuChoices over the entries in the order `entries`, writing
into the slice `menuChoices`; `none` is the panic of a write outside it. -/
def MenuChoices.fill : List (Int × String) → List String → Option (List String)
  | [], menuChoices => some menuChoices
  | (i, description) :: rest, menuChoices =>
    if 0 ≤ i ∧ i < menuChoices.length then
      MenuChoices.fill rest (menuChoices.set i.toNat (menuChoiceText i description))
    else none

/-- The method `Actions.MenuChoices`, for a `range` loop that visits the
titles in the order `order`. -/
def Actions.MenuChoicesIn {F : Type} (a : Actions F) (order : List (Int × String)) :
    Option (List String) :=
  MenuChoices.fill order (List.replicate (GoMap.len a.actionTitles).toNat "")

/-- The method `Actions.MenuChoices`, the loop visiting the titles in the
order of the map. -/
def Actions.MenuChoices {F : Type} (a : Actions F) : Option (List String) :=
  a.MenuChoicesIn a.actionTitles

/-- The method `Actions.Perform` for functions that act on a state `σ`; `none`
is the panic of calling the nil function of a missing key. -/
def Actions.Perform {σ : Type} (a : Actions (σ → σ)) (index : Int) (s : σ) : Option σ :=
  (GoMap.get a.actionFunctions index).map (fun f => f s)

/-- The method `Actions.AddCommand` (cmenu.go lines 87 to 94); what
`e.CommandToFunction` returned is the parameter `looked`. The second component
is the returned error. -/
def Actions.AddCommand {F : Type} (a : Actions F) (looked : Except String F)
    (title : String) : Actions F × Option String :=
  match looked with
  | Except.error err => (a, some err)
  | Except.ok f => (a.Add title f, none)

/-- An Actions value built by NewActions followed by one Add call for each
element of `l`, in order. -/
def addedInOrder {F : Type} (l : List (String × F)) : Actions F :=
  l.foldl (fun a p => a.Add p.1 p.2) NewActions

/-! # The command menu of src/command.go -/

/-- Calls that the function literals of CommandMenu in command.go make on the
editor, the undo stack, the status bar, the lock keeper, the portal and
external packages. -/
inductive Call where
  | UserSave | WrapAllLinesAt | Snapshot | SortStrings | InsertFile
  | StatusClear | StatusClearAll | StatusSetMessage | StatusSetErrorMessage
  | StatusShow | StatusDraw
  | TempFile | Save | GuessicaUpdateFile | Load
  | ToggleSyntaxHighlight | AbsFilename | LockLoad | LockUnlock | LockSave
  | ClosePortal | PortalSave
  | setDefaultTheme | setRedBlackTheme | setLightTheme | FullResetRedraw
  deriving DecidableEq, Repr

/-- The function literals that CommandMenu in command.go registers as menu
actions, one constructor for each `func()` in the source. -/
inductive MenuFunction where
  | saveAndQuit | toggleWrapWhenTyping | wordWrap | sortStrings | insertFile
  | callGuessica | toggleSyntaxHighlight | unlock
  | closePortal | openPortal (portal : String)
  | defaultTheme | redBlackTheme | lightTheme | colorTheme (i : Nat)
  deriving DecidableEq, Repr

/-- The calls in the body of each function literal, in source order (calls
under an `if` included; `err.Error()` and the `filepath` helpers left out). -/
def MenuFunction.calls : MenuFunction → List Call
  | .saveAndQuit => [.UserSave]
  | .toggleWrapWhenTyping => []
  | .wordWrap => [.WrapAllLinesAt]
  | .sortStrings =>
    [.Snapshot, .SortStrings, .StatusClear, .StatusSetErrorMessage, .StatusShow]
  | .insertFile => [.InsertFile, .StatusClear, .StatusSetErrorMessage, .StatusShow]
  | .callGuessica =>
    [.StatusClear, .StatusSetMessage, .StatusShow, .TempFile, .Save,
     .StatusSetErrorMessage, .StatusShow, .StatusSetErrorMessage, .StatusShow,
     .StatusDraw, .GuessicaUpdateFile, .StatusSetErrorMessage, .StatusShow, .Load,
     .StatusClearAll, .StatusSetMessage, .StatusShow]
  | .toggleSyntaxHighlight => [.ToggleSyntaxHighlight]
  | .unlock => [.AbsFilename, .LockLoad, .LockUnlock, .LockSave]
  | .closePortal => [.ClosePortal]
  | .openPortal _ => [.PortalSave]
  | .defaultTheme => [.setDefaultTheme, .FullResetRedraw]
  | .redBlackTheme => [.setRedBlackTheme, .FullResetRedraw]
  | .lightTheme => [.setLightTheme, .FullResetRedraw]
  | .colorTheme _ => [.FullResetRedraw]

/-- What the menu building of CommandMenu in command.go reads. `wrapWidth` is
the width computed at lines 99 to 110, `isPKGBUILD` the value of
`strings.HasSuffix(e.filename, "PKGBUILD")`; `loadPortal` and `newPortal` are
the outcomes of `LoadPortal()` and `e.NewPortal()`: `none` for an error, else
the text `portal.String()` of the portal returned. -/
structure MenuConfig where
  wrapWhenTyping : Bool
  wrapWidth : Int
  isPKGBUILD : Bool
  envNoColor : Bool
  syntaxHighlight : Bool
  forced : Bool
  loadPortal : Option String
  newPortal : Option String
  light : Bool

/-- The menu building of CommandMenu in command.go (lines 112 to 319); `none`
is the `panic(err)` of line 173. -/
def CommandMenu.actions (cfg : MenuConfig) : Option (Actions MenuFunction) :=
  let insertFilename := "include.txt"
  let wrapWhenTypingToggleText :=
    if cfg.wrapWhenTyping then "Disable word wrap when typing"
    else "Enable word wrap when typing"
  match NewActions2
      ["Save and quit",
       wrapWhenTypingToggleText,
       "Word wrap at " ++ toString cfg.wrapWidth,
       "Sort the list of strings on the current line",
       "Insert \"" ++ insertFilename ++ "\" at the current line"]
      [MenuFunction.saveAndQuit, MenuFunction.toggleWrapWhenTyping, MenuFunction.wordWrap,
       MenuFunction.sortStrings, MenuFunction.insertFile] with
  | GoResult.err _ => none
  | GoResult.panic => none
  | GoResult.ok a0 =>
    let a1 := if cfg.isPKGBUILD then a0.Add "Call Guessica" MenuFunction.callGuessica else a0
    let a2 :=
      if !cfg.envNoColor then
        let syntaxToggleText :=
          if !cfg.syntaxHighlight then "Enable syntax highlighting"
          else "Disable syntax highlighting"
        a1.Add syntaxToggleText MenuFunction.toggleSyntaxHighlight
      else a1
    let a3 := if cfg.forced then a2.Add "Unlock if locked" MenuFunction.unlock else a2
    let a4 :=
      match cfg.loadPortal with
      | some portal => a3.Add ("Close portal at " ++ portal) MenuFunction.closePortal
      | none =>
        match cfg.newPortal with
        | some portal => a3.Add ("Open portal at " ++ portal) (MenuFunction.openPortal portal)
        | none => a3
    let a5 := a4.Add "Default theme" MenuFunction.defaultTheme
    let a6 :=
      if !cfg.light && !cfg.envNoColor then
        let b1 := a5.Add "Red/black theme" MenuFunction.redBlackTheme
        let b2 := b1.Add "Light theme" MenuFunction.lightTheme
        let colorText := ["Amber", "Green", "Blue"]
        (List.range 3).foldl
          (fun b i => b.Add (colorText.getD i "" ++ " theme") (MenuFunction.colorTheme i)) b2
      else a5
    some a6

/-- Whether every occurrence of the call `op` in a body is preceded by a call
of `undo.Snapshot(e)`. -/
def snapshotBefore (op : Call) : List Call → Bool
  | [] => true
  | c :: rest =>
    if c = Call.Snapshot then true
    else if c = op then false
    else snapshotBefore op rest

/-- The titles and functions that CommandMenu in command.go registers, in
the order of registration. -/
def CommandMenu.items (cfg : MenuConfig) : List (String × MenuFunction) :=
  [("Save and quit", MenuFunction.saveAndQuit),
   (if cfg.wrapWhenTyping then "Disable word wrap when typing"
      else "Enable word wrap when typing", MenuFunction.toggleWrapWhenTyping),
   ("Word wrap at " ++ toString cfg.wrapWidth, MenuFunction.wordWrap),
   ("Sort the list of strings on the current line", MenuFunction.sortStrings),
   ("Insert \"" ++ "include.txt" ++ "\" at the current line", MenuFunction.insertFile)]
  ++ (if cfg.isPKGBUILD then [("Call Guessica", MenuFunction.callGuessica)] else [])
  ++ (if !cfg.envNoColor then
        [(if !cfg.syntaxHighlight then "Enable syntax highlighting"
            else "Disable syntax highlighting", MenuFunction.toggleSyntaxHighlight)]
      else [])
  ++ (if cfg.forced then [("Unlock if locked", MenuFunction.unlock)] else [])
  ++ (match cfg.loadPortal with
      | some portal => [("Close portal at " ++ portal, MenuFunction.closePortal)]
      | none =>
        match cfg.newPortal with
        | some portal => [("Open portal at " ++ portal, MenuFunction.openPortal portal)]
        | none => [])
  ++ [("Default theme", MenuFunction.defaultTheme)]
  ++ (if !cfg.light && !cfg.envNoColor then
        [("Red/black theme", MenuFunction.redBlackTheme),
         ("Light theme", MenuFunction.lightTheme),
         ("Amber theme", MenuFunction.colorTheme 0),
         ("Green theme", MenuFunction.colorTheme 1),
         ("Blue theme", MenuFunction.colorTheme 2)]
      else [])

/-! # The end of CommandMenu (src/command.go and src/v2/cmenu.go) -/

/-- What CommandMenu leaves behind: the editor, the status message it set
itself (if any) and the returned menu index. -/
structure CommandMenuResult where
  editor : MenuState
  message : Option String
  selected : Int

/-- The end of CommandMenu in command.go (lines 334 to 350), after `e.Menu`
returned `selected`; `none` is the panic of performing a missing function. -/
def CommandMenu.afterMenu (actions : Actions (MenuState → MenuState)) (selected : Int)
    (e : MenuState) : Option CommandMenuResult :=
  if selected < 0 then
    some ⟨{ e with redraw := false }, some "No action taken", selected⟩
  else
    match actions.Perform selected e with
    | none => none
    | some e1 => some ⟨{ e1 with redraw := true, redrawCursor := true }, none, selected⟩

/-- The end of CommandMenu in v2/cmenu.go (lines 560 to 580), after `e.Menu`
returned `selected`. The cursor adjustment of lines 572 to 574, made of
functions that live in other files, is the parameter `adjustCursor`. -/
def CommandMenuV2.afterMenu (adjustCursor : MenuState → MenuState)
    (actions : Actions (MenuState → MenuState)) (selected : Int)
    (e : MenuState) : Option CommandMenuResult :=
  if selected < 0 then
    some ⟨{ e with redraw := true, redrawCursor := true }, none, selected⟩
  else
    match actions.Perform selected e with
    | none => none
    | some e1 =>
      some ⟨{ adjustCursor e1 with redraw := true, redrawCursor := true }, none, selected⟩

/-! # The menu widget (src/menuwidget.go) -/

/-- Number of values of Go's `uint` on a 64-bit platform, 2 to the power 64. -/
def uintSize : Nat := 18446744073709551616

/-- The menu widget, without its colours and accelerator letters. The `uint`
fields are natural numbers below `uintSize`. -/
structure MenuWidget where
  title : String
  w : Nat
  h : Nat
  y : Nat
  oldy : Nat
  marginLeft : Int
  marginTop : Int
  choices : List String
  selected : Int
  extraDashes : Bool

/-- The method `MenuWidget.Up` (lines 148 to 156). -/
def MenuWidget.Up (m : MenuWidget) (_c : Option Canvas) : MenuWidget × Bool :=
  let m1 := { m with oldy := m.y }
  let m2 : MenuWidget :=
    if m1.y ≤ 0 then { m1 with y := (m1.h + uintSize - 1) % uintSize }
    else { m1 with y := (m1.y + uintSize - 1) % uintSize }
  (m2, true)

/-- The method `MenuWidget.Down` (lines 159 to 166). -/
def MenuWidget.Down (m : MenuWidget) (_c : Option Canvas) : MenuWidget × Bool :=
  let m1 := { m with oldy := m.y }
  let m2 := { m1 with y := (m1.y + 1) % uintSize }
  let m3 : MenuWidget := if m2.y ≥ m2.h then { m2 with y := 0 } else m2
  (m3, true)

/-- A widget of three choices with the highlight on the given row. -/
def threeChoices (y : Nat) : MenuWidget :=
  ⟨"Select an action", 13, 3, y, 0, 10, 4, ["[0] a", "[1] b", "[2] c"], -1, false⟩

/-! # Selecting an index of the menu widget (src/menuwidget.go) -/

/-- The Go conversion `int(u)` of a `uint` value, on a 64-bit platform. -/
def uintToInt (u : Nat) : Int :=
  if u % 18446744073709551616 < 9223372036854775808 then
    ((u % 18446744073709551616 : Nat) : Int)
  else ((u % 18446744073709551616 : Nat) : Int) - 18446744073709551616

/-- The Go conversion `uint(i)` of an `int` value, on a 64-bit platform. -/
def intToUint (i : Int) : Nat := (i % 18446744073709551616).toNat

/-- The function `NewMenuWidget` (lines 30 to 65), without the colours and the
accelerator letters. `len(choice)` is the length of the choice in bytes. -/
def NewMenuWidget (title : String) (choices : List String) (canvasWidth canvasHeight : Nat)
    (extraDashes : Bool) : MenuWidget :=
  let maxlen : Nat := choices.foldl
    (fun maxlen choice =>
      if intToUint choice.utf8ByteSize > maxlen then intToUint choice.utf8ByteSize else maxlen) 0
  let marginLeft : Int :=
    if uintToInt canvasWidth - (uintToInt maxlen + 10) ≤ 0 then 0 else 10
  let marginTop : Int :=
    if uintToInt canvasHeight - (choices.length + 10) ≤ 10 then 4
    else if uintToInt canvasHeight - (choices.length + 10) ≤ 0 then 0
    else 10
  { title := title
    w := intToUint (marginLeft + uintToInt maxlen)
    h := intToUint choices.length
    y := 0
    oldy := 0
    marginLeft := marginLeft
    marginTop := marginTop
    choices := choices
    selected := -1
    extraDashes := extraDashes }

/-- The method `MenuWidget.SelectIndex` (lines 169 to 176). -/
def MenuWidget.SelectIndex (m : MenuWidget) (n : Nat) : MenuWidget × Bool :=
  if n ≥ m.h then (m, false)
  else
    let m1 := { m with oldy := m.y }
    ({ m1 with y := n }, true)

/-- The method `MenuWidget.SelectFirst` (lines 179 to 181). -/
def MenuWidget.SelectFirst (m : MenuWidget) : MenuWidget × Bool :=
  m.SelectIndex 0

/-! # Pages of text (src/v2/pages.go) -/

/-- A single page of text. -/
structure Page where
  Lines : List String

/-- Modelled from the spec: the declaration of `Box` is in another file;
pages.go builds a box from four integers and reads its fields X, Y and H
(position and height). -/
structure Box where
  X : Int
  Y : Int
  W : Int
  H : Int

/-- Pages of text and the current page; the embedded `*Box` is the field
`box`. -/
structure ScrollableTextBox where
  Pages : List Page
  CurrentPage : Int
  box : Box

/-- The function `NewScrollableTextBox` (lines 20 to 26). -/
def NewScrollableTextBox (pages : List Page) : ScrollableTextBox :=
  { Pages := pages, CurrentPage := 0, box := ⟨0, 0, 0, 0⟩ }

/-- The method `NextPage` (lines 53 to 57). -/
def ScrollableTextBox.NextPage (stb : ScrollableTextBox) : ScrollableTextBox :=
  if stb.CurrentPage < stb.Pages.length - 1 then
    { stb with CurrentPage := stb.CurrentPage + 1 }
  else stb

/-- The method `PrevPage` (lines 60 to 64). -/
def ScrollableTextBox.PrevPage (stb : ScrollableTextBox) : ScrollableTextBox :=
  if stb.CurrentPage > 0 then
    { stb with CurrentPage := stb.CurrentPage - 1 }
  else stb

/-- The Go index expression `xs[i]` for an `int` index: `none` is the run-time
panic of an index out of range. -/
def goIndex {α : Type} (xs : List α) (i : Int) : Option α :=
  if i < 0 then none else xs[i.toNat]?

/-- One call of `c.Write`: column, row and text. -/
structure CanvasWrite where
  x : Nat
  y : Nat
  text : String
  deriving DecidableEq, Repr

/-- The method `Editor.DrawScrollableText` (lines 36 to 50): the writes it
makes on the canvas, in order; `none` is the panic of indexing `Pages` out of
range. The colours of the theme are left out. -/
def Editor.DrawScrollableText (_e : Editor) (stb : ScrollableTextBox) :
    Option (List CanvasWrite) :=
  if stb.CurrentPage ≥ stb.Pages.length ∨ stb.CurrentPage < 0 then some []
  else
    match goIndex stb.Pages stb.CurrentPage with
    | none => none
    | some page =>
      let x := intToUint stb.box.X
      some (page.Lines.enum.filterMap (fun p =>
        let y := intToUint (stb.box.Y + p.1)
        if uintToInt y < stb.box.Y + stb.box.H then some ⟨x, y, p.2⟩ else none))

/-- A call of one of the two paging methods. -/
inductive PageCall where
  | NextPage
  | PrevPage
  deriving DecidableEq, Repr

/-- The effect of one paging call. -/
def PageCall.run (stb : ScrollableTextBox) : PageCall → ScrollableTextBox
  | PageCall.NextPage => stb.NextPage
  | PageCall.PrevPage => stb.PrevPage

/-- The effect of a sequence of paging calls, first call first. -/
def runPageCalls (calls : List PageCall) (stb : ScrollableTextBox) : ScrollableTextBox :=
  calls.foldl PageCall.run stb

/-! # Editor modes (src/v2/vendor/github.com/xyproto/mode/mode.go) -/

namespace mode

/-- The type `Mode`, an `int`. -/
abbrev Mode := Int

/-- Mode constant 0 of the `const` block. -/
def Blank : Mode := 0

/-- Mode constant 1 of the `const` block. -/
def Git : Mode := 1

/-- Mode constant 2 of the `const` block. -/
def Markdown : Mode := 2

/-- Mode constant 3 of the `const` block. -/
def Doc : Mode := 3

/-- Mode constant 4 of the `const` block. -/
def Makefile : Mode := 4

/-- Mode constant 5 of the `const` block. -/
def Shell : Mode := 5

/-- Mode constant 6 of the `const` block. -/
def Config : Mode := 6

/-- Mode constant 7 of the `const` block. -/
def Assembly : Mode := 7

/-- Mode constant 8 of the `const` block. -/
def GoAssembly : Mode := 8

/-- Mode constant 9 of the `const` block. -/
def Go : Mode := 9

/-- Mode constant 10 of the `const` block. -/
def Haskell : Mode := 10

/-- Mode constant 11 of the `const` block. -/
def OCaml : Mode := 11

/-- Mode constant 12 of the `const` block. -/
def StandardML : Mode := 12

/-- Mode constant 13 of the `const` block. -/
def Python : Mode := 13

/-- Mode constant 14 of the `const` block. -/
def Text : Mode := 14

/-- Mode constant 15 of the `const` block. -/
def CMake : Mode := 15

/-- Mode constant 16 of the `const` block. -/
def Vim : Mode := 16

/-- Mode constant 17 of the `const` block. -/
def V : Mode := 17

/-- Mode constant 18 of the `const` block. -/
def Clojure : Mode := 18

/-- Mode constant 19 of the `const` block. -/
def Lisp : Mode := 19

/-- Mode constant 20 of the `const` block. -/
def Zig : Mode := 20

/-- Mode constant 21 of the `const` block. -/
def Kotlin : Mode := 21

/-- Mode constant 22 of the `const` block. -/
def Java : Mode := 22

/-- Mode constant 23 of the `const` block. -/
def Gradle : Mode := 23

/-- Mode constant 24 of the `const` block. -/
def HIDL : Mode := 24

/-- Mode constant 25 of the `const` block. -/
def AIDL : Mode := 25

/-- Mode constant 26 of the `const` block. -/
def SQL : Mode := 26

/-- Mode constant 27 of the `const` block. -/
def Oak : Mode := 27

/-- Mode constant 28 of the `const` block. -/
def Rust : Mode := 28

/-- Mode constant 29 of the `const` block. -/
def Lua : Mode := 29

/-- Mode constant 30 of the `const` block. -/
def Crystal : Mode := 30

/-- Mode constant 31 of the `const` block. -/
def Erlang : Mode := 31

/-- Mode constant 32 of the `const` block. -/
def Nim : Mode := 32

/-- Mode constant 33 of the `const` block. -/
def ObjectPascal : Mode := 33

/-- Mode constant 34 of the `const` block. -/
def Bat : Mode := 34

/-- Mode constant 35 of the `const` block. -/
def Cpp : Mode := 35

/-- Mode constant 36 of the `const` block. -/
def C : Mode := 36

/-- Mode constant 37 of the `const` block. -/
def Ada : Mode := 37

/-- Mode constant 38 of the `const` block. -/
def HTML : Mode := 38

/-- Mode constant 39 of the `const` block. -/
def Odin : Mode := 39

/-- Mode constant 40 of the `const` block. -/
def Hare : Mode := 40

/-- Mode constant 41 of the `const` block. -/
def Jakt : Mode := 41

/-- Mode constant 42 of the `const` block. -/
def XML : Mode := 42

/-- Mode constant 43 of the `const` block. -/
def PolicyLanguage : Mode := 43

/-- Mode constant 44 of the `const` block. -/
def Nroff : Mode := 44

/-- Mode constant 45 of the `const` block. -/
def Scala : Mode := 45

/-- Mode constant 46 of the `const` block. -/
def JSON : Mode := 46

/-- Mode constant 47 of the `const` block. -/
def Battlestar : Mode := 47

/-- Mode constant 48 of the `const` block. -/
def CS : Mode := 48

/-- Mode constant 49 of the `const` block. -/
def JavaScript : Mode := 49

/-- Mode constant 50 of the `const` block. -/
def TypeScript : Mode := 50

/-- Mode constant 51 of the `const` block. -/
def ManPage : Mode := 51

/-- Mode constant 52 of the `const` block. -/
def Amber : Mode := 52

/-- Mode constant 53 of the `const` block. -/
def Bazel : Mode := 53

/-- Mode constant 54 of the `const` block. -/
def D : Mode := 54

/-- Mode constant 55 of the `const` block. -/
def Perl : Mode := 55

/-- Mode constant 56 of the `const` block. -/
def Prolog : Mode := 56

/-- Mode constant 57 of the `const` block. -/
def M4 : Mode := 57

/-- Mode constant 58 of the `const` block. -/
def Agda : Mode := 58

/-- Mode constant 59 of the `const` block. -/
def Basic : Mode := 59

/-- Mode constant 60 of the `const` block. -/
def Log : Mode := 60

/-- Mode constant 61 of the `const` block. -/
def Teal : Mode := 61

/-- Mode constant 62 of the `const` block. -/
def Email : Mode := 62

/-- The method `Mode.String` (lines 73 to 206): the `switch` as a chain of
comparisons in the order of its cases. -/
def Mode.String (mode : Mode) : String :=
  if mode = Blank then "-"
  else if mode = Teal then "Teal"
  else if mode = Git then "Git"
  else if mode = Markdown then "Markdown"
  else if mode = Makefile then "Make"
  else if mode = Shell then "Shell"
  else if mode = Config then "Configuration"
  else if mode = Assembly then "Assembly"
  else if mode = GoAssembly then "Go-style Assembly"
  else if mode = Go then "Go"
  else if mode = Haskell then "Haskell"
  else if mode = OCaml then "Ocaml"
  else if mode = StandardML then "Standard ML"
  else if mode = Python then "Python"
  else if mode = Text then "Text"
  else if mode = CMake then "Cmake"
  else if mode = Vim then "ViM"
  else if mode = Clojure then "Clojure"
  else if mode = Lisp then "Lisp"
  else if mode = Zig then "Zig"
  else if mode = Kotlin then "Kotlin"
  else if mode = Java then "Java"
  else if mode = Gradle then "Gradle"
  else if mode = HIDL then "HIDL"
  else if mode = AIDL then "AIDL"
  else if mode = SQL then "SQL"
  else if mode = Oak then "Oak"
  else if mode = Rust then "Rust"
  else if mode = Lua then "Lua"
  else if mode = Crystal then "Crystal"
  else if mode = Erlang then "Erlang"
  else if mode = Nim then "Nim"
  else if mode = ObjectPascal then "Pas"
  else if mode = Bat then "Bat"
  else if mode = Cpp then "C++"
  else if mode = C then "C"
  else if mode = Ada then "Ada"
  else if mode = HTML then "HTML"
  else if mode = Odin then "Odin"
  else if mode = Hare then "Hare"
  else if mode = Jakt then "Jakt"
  else if mode = Perl then "Perl"
  else if mode = Prolog then "Prolog"
  else if mode = XML then "XML"
  else if mode = PolicyLanguage then "SELinux"
  else if mode = Nroff then "Nroff"
  else if mode = Scala then "Scala"
  else if mode = JSON then "JSON"
  else if mode = Battlestar then "Battlestar"
  else if mode = CS then "C#"
  else if mode = TypeScript then "TypeScript"
  else if mode = JavaScript then "JavaScript"
  else if mode = ManPage then "Man"
  else if mode = Amber then "Amber"
  else if mode = Bazel then "Bazel"
  else if mode = D then "D"
  else if mode = V then "V"
  else if mode = M4 then "M4"
  else if mode = Agda then "Agda"
  else if mode = Basic then "Basic"
  else if mode = Log then "Log"
  else if mode = Email then "E-mail"
  else if mode = Doc then "Document"
  else "?"

/-- Whether a string contains an uppercase letter. -/
def hasUpper (s : String) : Bool := s.data.any Char.isUpper

end mode

/-! # The last command (src/command.go and src/v2/main.go) -/

/-- The fields of `exec.Cmd` that getCommand reads. -/
structure Cmd where
  Path : String
  Args : List String

/-- The Go call `strings.HasPrefix(s, prefix)`. -/
def HasPrefix (s pre : String) : Bool := pre.data.isPrefixOf s.data

/-- The Go call `strings.TrimPrefix(s, prefix)`. -/
def TrimPrefix (s pre : String) : String :=
  if HasPrefix s pre then String.mk (s.data.drop pre.data.length) else s

/-- The Go call `strings.Contains(s, substr)`. -/
def Contains (s substr : String) : Bool :=
  s.data.tails.any (fun t => substr.data.isPrefixOf t)

/-- The function `getCommand` (command.go lines 355 to 358); `none` is the
panic of the slice expression `cmd.Args[1:]` on an empty `Args`. -/
def getCommand (cmd : Cmd) : Option String :=
  match cmd.Args with
  | [] => none
  | _ :: rest =>
    let s := cmd.Path ++ " " ++ " ".intercalate rest
    some (TrimPrefix s "/usr/bin/sh -c ")

/-- The function `saveCommand` (command.go lines 361 to 382): the text it
hands to `f.WriteString` for the file opened with `O_TRUNC`. `openErr` is the
error of `os.OpenFile`, if any; `panic` is the panic of getCommand. -/
def saveCommand (openErr : Option String) (cmd : Cmd) : GoResult String :=
  match openErr with
  | some err => GoResult.err err
  | none =>
    match getCommand cmd with
    | none => GoResult.panic
    | some commandString => GoResult.ok ("#!/bin/sh\n" ++ commandString ++ "\n")

/-- The Go call `strings.SplitN(s, "\n", 2)`: the text before the first line
feed and the text after it, or the whole text when it has no line feed. -/
def splitFirstLine (s : String) : List String :=
  match s.data.dropWhile (fun ch => ch != '\n') with
  | [] => [s]
  | _ :: rest => [String.mk (s.data.takeWhile (fun ch => ch != '\n')), String.mk rest]

/-- The Go function `unicode.IsSpace`: the white space characters of
Unicode. -/
def isSpace (ch : Char) : Bool :=
  ch == '\t' || ch == '\n' || ch.val == 11 || ch.val == 12 || ch == '\r' || ch == ' ' ||
  ch.val == 0x85 || ch.val == 0xA0 || ch.val == 0x1680 ||
  (0x2000 ≤ ch.val && ch.val ≤ 0x200A) || ch.val == 0x2028 || ch.val == 0x2029 ||
  ch.val == 0x202F || ch.val == 0x205F || ch.val == 0x3000

/-- The Go call `strings.TrimSpace(s)`: white space removed at the start, then
at the end. -/
def TrimSpace (s : String) : String :=
  String.mk ((s.data.dropWhile isSpace).rdropWhile isSpace)

/-- The characters left by
`regexp.MustCompile("/tmp/o\\..*$").ReplaceAllString(s, "")`: the text is cut at
the first place where "/tmp/o." starts and no line feed follows up to the end
of the text (a dot of the pattern matches no line feed, and the dollar sign
only the end of the text). -/
def removeTmpSuffix : List Char → List Char
  | [] => []
  | ch :: rest =>
    if "/tmp/o.".data.isPrefixOf (ch :: rest) && !((ch :: rest).drop 7).contains '\n' then []
    else ch :: removeTmpSuffix rest

/-- The calls `main` makes on the file system and on the portal. -/
inductive SysCall where
  | ReadLastCommandFile
  | RemoveLockFile
  | ClearPortal
  deriving DecidableEq, Repr

/-- What a run of `main` leaves behind: the calls made, the text printed on
standard output and on standard error, and the exit status. -/
structure ProcessResult where
  calls : List SysCall
  stdout : String
  stderr : String
  exitCode : Int
  deriving DecidableEq, Repr

/-- The branch `if lastCommandFlag` of `main` (main.go lines 87 to 103).
`readFile` is what `os.ReadFile(lastCommandFile)` returned: `none` for an
error, else the contents. -/
def mainLastCommand (lastCommandFile : String) (readFile : Option String) : ProcessResult :=
  match readFile with
  | none => ⟨[SysCall.ReadLastCommandFile], "no available last command\n", "", 0⟩
  | some data =>
    let firstLineAndRest := splitFirstLine data
    if firstLineAndRest.length ≠ 2 ∨ !HasPrefix (firstLineAndRest.getD 0 "") "#" then
      ⟨[SysCall.ReadLastCommandFile], "",
        "unrecognized contents in " ++ lastCommandFile ++ "\n", 1⟩
    else
      let theRest := TrimSpace (firstLineAndRest.getD 1 "")
      let replaced := String.mk (removeTmpSuffix theRest.data)
      ⟨[SysCall.ReadLastCommandFile], replaced ++ "\n", "", 0⟩

/-- The branch `if clearLocksFlag` of `main` (main.go lines 176 to 196).
`lockErr` is what `os.Remove(defaultLockFile)` returned and `portalErr` what
`ClearPortal()` returned: `none` for nil, else the text of the error. -/
def mainClearLocks (lockErr portalErr : Option String) : ProcessResult :=
  let calls := [SysCall.RemoveLockFile]
  let calls := calls ++ [SysCall.ClearPortal]
  match lockErr, portalErr with
  | none, some _ => ⟨calls, "Cleared all locks\n", "", 0⟩
  | none, none => ⟨calls, "Cleared all locks and closed the portal\n", "", 0⟩
  | some err, none =>
    ⟨calls, "", "Closed the portal, but could not clear locks: " ++ err ++ "\n", 1⟩
  | some err, some _ => ⟨calls, "", "Could not clear locks: " ++ err ++ "\n", 1⟩

/-! ## Helper facts about GoTo -/

theorem termHeight_nonneg (c : Option Canvas) : 0 ≤ termHeight c := by
  cases c with
  | none => simp [termHeight]
  | some cv => simp [termHeight]

/-- On the line where the cursor already stands GoTo returns at once. -/
theorem goTo_of_eq (e : Editor) (t : Int) (c : Option Canvas) (status : Option StatusBar)
    (h : t = e.DataY) : e.GoTo t c status = ⟨e, status, true, false⟩ := by
  simp [Editor.GoTo, h]

/-- GoTo never changes the number of lines. -/
theorem goTo_lineCount (e : Editor) (t : Int) (c : Option Canvas)
    (status : Option StatusBar) : (e.GoTo t c status).editor.lineCount = e.lineCount := by
  simp only [Editor.GoTo]
  split_ifs <;> rfl

/-- On any other line the viewport after GoTo is the one scrollTo computes
for the bounds-checked target. -/
theorem goTo_of_ne (e : Editor) (t : Int) (c : Option Canvas) (status : Option StatusBar)
    (h : t ≠ e.DataY) :
    (e.GoTo t c status).editor.pos.offsetY
        = (scrollTo e (boundsCheck e t).1 (boundsCheck e t).2 (termHeight c)).offsetY ∧
    (e.GoTo t c status).editor.pos.sy
        = (scrollTo e (boundsCheck e t).1 (boundsCheck e t).2 (termHeight c)).sy ∧
    (e.GoTo t c status).editor.redrawCursor = true ∧
    (e.GoTo t c status).redraw = true ∧
    (e.GoTo t c status).reachedTheEnd = (boundsCheck e t).2 := by
  simp [Editor.GoTo, h, Position.SetX]

/-- The bounds check yields the clamped target. -/
theorem boundsCheck_fst (e : Editor) (t : Int) :
    (boundsCheck e t).1 = clampLine e.Len t := by
  simp only [boundsCheck, clampLine]
  split_ifs <;> rfl

/-- The bounds check reports the end exactly for a target at or past the
line count that is not negative. -/
theorem boundsCheck_snd (e : Editor) (t : Int) :
    (boundsCheck e t).2 = true ↔ (0 ≤ t ∧ e.Len ≤ t) := by
  simp only [boundsCheck]
  split_ifs <;> simp <;> omega

/-- The placement scrollTo computes is a fixed point: computed again from the
viewport it produced, for the same target, it gives that viewport back. -/
theorem scrollTo_fixed (e e2 : Editor) (d : Int) (r : Bool) (h : Int)
    (hr : r = true → d = e.Len - 1)
    (hlen : e2.lineCount = e.lineCount)
    (ho : e2.pos.offsetY = (scrollTo e d r h).offsetY)
    (hs : e2.pos.sy = (scrollTo e d r h).sy) :
    (scrollTo e2 d r h).offsetY = e2.pos.offsetY ∧ (scrollTo e2 d r h).sy = e2.pos.sy := by
  cases r
  · simp only [scrollTo, Editor.Len] at *
    split_ifs at ho hs <;> simp at ho hs <;> split_ifs <;> simp <;>
      first | omega | contradiction
  · simp only [scrollTo, Editor.Len] at *
    simp at hr
    split_ifs at ho hs <;> simp at ho hs <;> split_ifs <;> simp <;> omega

/-- With the cursor on a line of the buffer, the logical line after GoTo is
the clamped target. -/
theorem goTo_dataY (e : Editor) (t : Int) (c : Option Canvas) (status : Option StatusBar)
    (hcur : 0 ≤ e.DataY ∧ e.DataY < e.Len) :
    (e.GoTo t c status).editor.DataY = clampLine e.Len t := by
  simp only [Editor.GoTo, Editor.DataY, Editor.Len, boundsCheck, scrollTo, Position.SetX,
    clampLine] at *
  split_ifs <;> simp_all <;> omega

/-! ## Claims C1 to C10 -/

/-- C1: for a buffer with at least one line, a terminal of height at least 1
and a cursor on a line of the buffer, the logical line after GoTo(t) is t
clamped into the valid line indices (0 for t below 0, Len - 1 for t at or
above Len, else t), for every integer t. -/
theorem goTo_logical_line_clamped (e : Editor) (t : Int) (c : Option Canvas)
    (status : Option StatusBar) (_hlen : 1 ≤ e.Len) (_hh : 1 ≤ termHeight c)
    (hcur : 0 ≤ e.DataY ∧ e.DataY < e.Len) :
    (e.GoTo t c status).editor.DataY =
      (if t < 0 then 0 else if t ≥ e.Len then e.Len - 1 else t) := by
  have h := goTo_dataY e t c status hcur
  simpa [clampLine] using h

theorem goTo_logical_line_clamped_witness :
    1 ≤ (editorAt 40 3 100 false).Len ∧ 1 ≤ termHeight (some ⟨10⟩) ∧
    (0 ≤ (editorAt 40 3 100 false).DataY ∧
      (editorAt 40 3 100 false).DataY < (editorAt 40 3 100 false).Len) ∧
    ((editorAt 40 3 100 false).GoTo 1000 (some ⟨10⟩) none).editor.DataY =
      (if (1000 : Int) < 0 then 0
        else if (1000 : Int) ≥ (editorAt 40 3 100 false).Len
          then (editorAt 40 3 100 false).Len - 1 else 1000) :=
  ⟨by decide, by decide, by decide,
    goTo_logical_line_clamped (editorAt 40 3 100 false) 1000 (some ⟨10⟩) none
      (by decide) (by decide) (by decide)⟩

/-- C2: with the cursor on a line of the buffer, the second value GoTo(t)
returns (end reached) is true exactly when t is at or past Len; so it is false
for negative and for in-range t, and true for t at or past Len also when the
cursor stands on the last line. -/
theorem goTo_reachedTheEnd_iff (e : Editor) (t : Int) (c : Option Canvas)
    (status : Option StatusBar) (hcur : 0 ≤ e.DataY ∧ e.DataY < e.Len) :
    (e.GoTo t c status).reachedTheEnd = true ↔ t ≥ e.Len := by
  simp only [Editor.GoTo, Editor.DataY, Editor.Len, boundsCheck] at *
  split_ifs
  all_goals simp_all
  all_goals omega

theorem goTo_reachedTheEnd_iff_witness :
    (0 ≤ (editorAt 90 9 100 false).DataY ∧
      (editorAt 90 9 100 false).DataY < (editorAt 90 9 100 false).Len) ∧
    (((editorAt 90 9 100 false).GoTo 100 (some ⟨10⟩) none).reachedTheEnd = true ↔
      (100 : Int) ≥ (editorAt 90 9 100 false).Len) :=
  ⟨by decide, goTo_reachedTheEnd_iff (editorAt 90 9 100 false) 100 (some ⟨10⟩) none
    (by decide)⟩

/-- C3: GoTo is idempotent on the viewport: for every editor state, target
line and terminal, GoTo(t) called again on the state the first call left (the
buffer and the terminal being the same) leaves the pair (offsetY, sy) as the
first call left it. -/
theorem goTo_idempotent (e : Editor) (t : Int) (c : Option Canvas)
    (status status2 : Option StatusBar) :
    ((e.GoTo t c status).editor.GoTo t c status2).editor.pos.offsetY
        = (e.GoTo t c status).editor.pos.offsetY ∧
    ((e.GoTo t c status).editor.GoTo t c status2).editor.pos.sy
        = (e.GoTo t c status).editor.pos.sy := by
  by_cases h2 : t = (e.GoTo t c status).editor.DataY
  · rw [goTo_of_eq _ t c status2 h2]
    exact ⟨rfl, rfl⟩
  · have h1 : t ≠ e.DataY := by
      intro h
      apply h2
      rw [goTo_of_eq e t c status h]
      exact h
    obtain ⟨ho, hs, -, -, -⟩ := goTo_of_ne e t c status h1
    obtain ⟨ho2, hs2, -, -, -⟩ := goTo_of_ne (e.GoTo t c status).editor t c status2 h2
    have hlen := goTo_lineCount e t c status
    have hb : boundsCheck (e.GoTo t c status).editor t = boundsCheck e t := by
      simp only [boundsCheck, Editor.Len, hlen]
    have hr : (boundsCheck e t).2 = true → (boundsCheck e t).1 = e.Len - 1 := by
      simp only [boundsCheck]
      split_ifs <;> simp
    rw [hb] at ho2 hs2
    have hfix := scrollTo_fixed e (e.GoTo t c status).editor (boundsCheck e t).1
      (boundsCheck e t).2 (termHeight c) hr hlen ho hs
    rw [ho2, hs2]
    exact hfix

/-- C4: for a target t that is a line of the buffer and lies inside the
window of lines on screen (offsetY up to offsetY + h, the upper end excluded),
GoTo(t) leaves offsetY as it was and sets sy to t - offsetY. -/
theorem goTo_within_window (e : Editor) (t : Int) (c : Option Canvas)
    (status : Option StatusBar) (ht : 0 ≤ t ∧ t < e.Len)
    (hwin : e.pos.offsetY ≤ t ∧ t < e.pos.offsetY + termHeight c) :
    (e.GoTo t c status).editor.pos.offsetY = e.pos.offsetY ∧
    (e.GoTo t c status).editor.pos.sy = t - e.pos.offsetY := by
  simp only [Editor.GoTo, Editor.DataY, Editor.Len, boundsCheck, scrollTo, Position.SetX] at *
  split_ifs <;> simp_all <;> omega

theorem goTo_within_window_witness :
    ((0 : Int) ≤ 45 ∧ (45 : Int) < (editorAt 40 0 100 false).Len) ∧
    ((editorAt 40 0 100 false).pos.offsetY ≤ 45 ∧
      (45 : Int) < (editorAt 40 0 100 false).pos.offsetY + termHeight (some ⟨10⟩)) ∧
    ((editorAt 40 0 100 false).GoTo 45 (some ⟨10⟩) none).editor.pos.offsetY = 40 ∧
    ((editorAt 40 0 100 false).GoTo 45 (some ⟨10⟩) none).editor.pos.sy = 5 :=
  ⟨by decide, by decide,
    goTo_within_window (editorAt 40 0 100 false) 45 (some ⟨10⟩) none (by decide) (by decide)⟩

/-- C5: GoTo preserves the viewport invariant: from a state with Len at least
1, terminal height h at least 1, offsetY not negative and sy in the rows 0 up
to h - 1, after GoTo(t) offsetY is again not negative and sy again a row of
the terminal, for every target t. -/
theorem goTo_preserves_viewport_invariant (e : Editor) (t : Int) (c : Option Canvas)
    (status : Option StatusBar) (hlen : 1 ≤ e.Len) (hh : 1 ≤ termHeight c)
    (ho : 0 ≤ e.pos.offsetY) (hs : 0 ≤ e.pos.sy ∧ e.pos.sy < termHeight c) :
    0 ≤ (e.GoTo t c status).editor.pos.offsetY ∧
    0 ≤ (e.GoTo t c status).editor.pos.sy ∧
    (e.GoTo t c status).editor.pos.sy < termHeight c := by
  simp only [Editor.GoTo, Editor.DataY, Editor.Len, boundsCheck, scrollTo, Position.SetX] at *
  split_ifs <;> simp_all <;> omega

theorem goTo_preserves_viewport_invariant_witness :
    1 ≤ (editorAt 40 3 100 false).Len ∧ 1 ≤ termHeight (some ⟨10⟩) ∧
    0 ≤ (editorAt 40 3 100 false).pos.offsetY ∧
    (0 ≤ (editorAt 40 3 100 false).pos.sy ∧
      (editorAt 40 3 100 false).pos.sy < termHeight (some ⟨10⟩)) ∧
    (0 ≤ ((editorAt 40 3 100 false).GoTo 77 (some ⟨10⟩) none).editor.pos.offsetY ∧
      0 ≤ ((editorAt 40 3 100 false).GoTo 77 (some ⟨10⟩) none).editor.pos.sy ∧
      ((editorAt 40 3 100 false).GoTo 77 (some ⟨10⟩) none).editor.pos.sy
        < termHeight (some ⟨10⟩)) :=
  ⟨by decide, by decide, by decide, by decide,
    goTo_preserves_viewport_invariant (editorAt 40 3 100 false) 77 (some ⟨10⟩) none
      (by decide) (by decide) (by decide) (by decide)⟩

/-- C6: for a target equal to the current logical line offsetY + sy, GoTo
returns redraw = true and end reached = false, and leaves offsetY and sy (the
whole editor state, and the status bar) as they were. -/
theorem goTo_current_line (e : Editor) (c : Option Canvas) (status : Option StatusBar) :
    (e.GoTo (e.pos.offsetY + e.pos.sy) c status).redraw = true ∧
    (e.GoTo (e.pos.offsetY + e.pos.sy) c status).reachedTheEnd = false ∧
    (e.GoTo (e.pos.offsetY + e.pos.sy) c status).editor.pos.offsetY = e.pos.offsetY ∧
    (e.GoTo (e.pos.offsetY + e.pos.sy) c status).editor.pos.sy = e.pos.sy ∧
    (e.GoTo (e.pos.offsetY + e.pos.sy) c status).editor = e ∧
    (e.GoTo (e.pos.offsetY + e.pos.sy) c status).status = status := by
  rw [goTo_of_eq e (e.pos.offsetY + e.pos.sy) c status rfl]
  exact ⟨rfl, rfl, rfl, rfl, rfl, rfl⟩

/-- C7 as stated fails: with the cursor one line past the end of a buffer of 5
lines (offsetY = 5, sy = 0) and a terminal of 10 rows, the target 5 has the
clamped value 4, which differs from the current line 5, lies outside the
window 5 to 14 and is below 10; GoTo(5) returns at once, leaving offsetY = 5
and sy = 0 instead of offsetY = 0 and sy = 4. -/
theorem goTo_snap_to_top_counterexample :
    1 ≤ (editorAt 5 0 5 false).Len ∧
    clampLine (editorAt 5 0 5 false).Len 5 ≠ (editorAt 5 0 5 false).DataY ∧
    ¬ ((editorAt 5 0 5 false).pos.offsetY ≤ clampLine (editorAt 5 0 5 false).Len 5 ∧
        clampLine (editorAt 5 0 5 false).Len 5
          < (editorAt 5 0 5 false).pos.offsetY + termHeight (some ⟨10⟩)) ∧
    clampLine (editorAt 5 0 5 false).Len 5 < termHeight (some ⟨10⟩) ∧
    ¬ (((editorAt 5 0 5 false).GoTo 5 (some ⟨10⟩) none).editor.pos.offsetY = 0 ∧
        ((editorAt 5 0 5 false).GoTo 5 (some ⟨10⟩) none).editor.pos.sy
          = clampLine (editorAt 5 0 5 false).Len 5) := by
  decide

/-- C7, amended: for a buffer with at least one line and a target t that is
itself different from the current line, if the clamped value d of t lies
outside the window on screen and d is below the terminal height, GoTo snaps
the window to the top: afterwards offsetY = 0 and sy = d. -/
theorem goTo_snap_to_top (e : Editor) (t : Int) (c : Option Canvas)
    (status : Option StatusBar) (hlen : 1 ≤ e.Len) (hne : t ≠ e.DataY)
    (hout : ¬ (e.pos.offsetY ≤ clampLine e.Len t ∧
      clampLine e.Len t < e.pos.offsetY + termHeight c))
    (hd : clampLine e.Len t < termHeight c) :
    (e.GoTo t c status).editor.pos.offsetY = 0 ∧
    (e.GoTo t c status).editor.pos.sy = clampLine e.Len t := by
  simp only [Editor.GoTo, Editor.DataY, Editor.Len, boundsCheck, scrollTo, Position.SetX,
    clampLine] at *
  split_ifs at *
  all_goals simp_all
  all_goals omega

theorem goTo_snap_to_top_witness :
    1 ≤ (editorAt 40 3 100 false).Len ∧ (7 : Int) ≠ (editorAt 40 3 100 false).DataY ∧
    ¬ ((editorAt 40 3 100 false).pos.offsetY ≤ clampLine (editorAt 40 3 100 false).Len 7 ∧
        clampLine (editorAt 40 3 100 false).Len 7
          < (editorAt 40 3 100 false).pos.offsetY + termHeight (some ⟨10⟩)) ∧
    clampLine (editorAt 40 3 100 false).Len 7 < termHeight (some ⟨10⟩) ∧
    (((editorAt 40 3 100 false).GoTo 7 (some ⟨10⟩) none).editor.pos.offsetY = 0 ∧
      ((editorAt 40 3 100 false).GoTo 7 (some ⟨10⟩) none).editor.pos.sy
        = clampLine (editorAt 40 3 100 false).Len 7) :=
  ⟨by decide, by decide, by decide, by decide,
    goTo_snap_to_top (editorAt 40 3 100 false) 7 (some ⟨10⟩) none
      (by decide) (by decide) (by decide) (by decide)⟩

/-- C8 as stated fails: with the cursor one line past the end of a buffer of
15 lines (offsetY = 15, sy = 0) and a terminal of 10 rows, the target 15 is at
or past Len, the last line 14 lies outside the window 15 to 24 and is at least
10; GoTo(15) returns at once, leaving offsetY = 15 and sy = 0 instead of
offsetY = 5 and sy = 9. -/
theorem goTo_last_page_counterexample :
    (15 : Int) ≥ (editorAt 15 0 15 false).Len ∧
    ¬ ((editorAt 15 0 15 false).pos.offsetY ≤ (editorAt 15 0 15 false).Len - 1 ∧
        (editorAt 15 0 15 false).Len - 1
          < (editorAt 15 0 15 false).pos.offsetY + termHeight (some ⟨10⟩)) ∧
    (editorAt 15 0 15 false).Len - 1 ≥ termHeight (some ⟨10⟩) ∧
    ¬ (((editorAt 15 0 15 false).GoTo 15 (some ⟨10⟩) none).editor.pos.offsetY
          = (editorAt 15 0 15 false).Len - termHeight (some ⟨10⟩) ∧
        ((editorAt 15 0 15 false).GoTo 15 (some ⟨10⟩) none).editor.pos.sy
          = termHeight (some ⟨10⟩) - 1) := by
  decide

/-- C8, amended: for a target t at or past Len that is different from the
current line, if the last line Len - 1 lies outside the window on screen and
Len - 1 is at least the terminal height h, GoTo(t) shows the last full page:
afterwards offsetY = Len - h and sy = h - 1, so offsetY is at least 1 and the
logical line offsetY + sy is the last line. -/
theorem goTo_last_page (e : Editor) (t : Int) (c : Option Canvas)
    (status : Option StatusBar) (ht : t ≥ e.Len) (hne : t ≠ e.DataY)
    (hout : ¬ (e.pos.offsetY ≤ e.Len - 1 ∧ e.Len - 1 < e.pos.offsetY + termHeight c))
    (hd : e.Len - 1 ≥ termHeight c) :
    (e.GoTo t c status).editor.pos.offsetY = e.Len - termHeight c ∧
    (e.GoTo t c status).editor.pos.sy = termHeight c - 1 ∧
    1 ≤ (e.GoTo t c status).editor.pos.offsetY ∧
    (e.GoTo t c status).editor.DataY = e.Len - 1 := by
  have hh := termHeight_nonneg c
  simp only [Editor.GoTo, Editor.DataY, Editor.Len, boundsCheck, scrollTo, Position.SetX] at *
  split_ifs at * <;> simp_all <;> omega

theorem goTo_last_page_witness :
    (500 : Int) ≥ (editorAt 40 3 100 false).Len ∧ (500 : Int) ≠ (editorAt 40 3 100 false).DataY ∧
    ¬ ((editorAt 40 3 100 false).pos.offsetY ≤ (editorAt 40 3 100 false).Len - 1 ∧
        (editorAt 40 3 100 false).Len - 1
          < (editorAt 40 3 100 false).pos.offsetY + termHeight (some ⟨10⟩)) ∧
    (editorAt 40 3 100 false).Len - 1 ≥ termHeight (some ⟨10⟩) ∧
    (((editorAt 40 3 100 false).GoTo 500 (some ⟨10⟩) none).editor.pos.offsetY
        = (editorAt 40 3 100 false).Len - termHeight (some ⟨10⟩) ∧
      ((editorAt 40 3 100 false).GoTo 500 (some ⟨10⟩) none).editor.pos.sy
        = termHeight (some ⟨10⟩) - 1 ∧
      1 ≤ ((editorAt 40 3 100 false).GoTo 500 (some ⟨10⟩) none).editor.pos.offsetY ∧
      ((editorAt 40 3 100 false).GoTo 500 (some ⟨10⟩) none).editor.DataY
        = (editorAt 40 3 100 false).Len - 1) :=
  ⟨by decide, by decide, by decide, by decide,
    goTo_last_page (editorAt 40 3 100 false) 500 (some ⟨10⟩) none
      (by decide) (by decide) (by decide) (by decide)⟩

/-- C9 as stated fails: from a state whose redrawCursor flag is false, with
the cursor on line 3 (offsetY = 0, sy = 3), GoTo(3) returns at once and the
flag is still false. -/
theorem goTo_redrawCursor_counterexample :
    (editorAt 0 3 10 false).DataY = 3 ∧
    ((editorAt 0 3 10 false).GoTo 3 (some ⟨10⟩) none).editor.redrawCursor = false := by
  decide

/-- C9, amended: for every target line different from the current logical
line, the redrawCursor flag is true after GoTo; for a target equal to the
current line GoTo returns redraw = true and leaves the flag as it was. -/
theorem goTo_redrawCursor (e : Editor) (t : Int) (c : Option Canvas)
    (status : Option StatusBar) :
    (t ≠ e.DataY → (e.GoTo t c status).editor.redrawCursor = true) ∧
    (t = e.DataY → (e.GoTo t c status).redraw = true ∧
      (e.GoTo t c status).editor.redrawCursor = e.redrawCursor) := by
  constructor
  · intro h
    exact (goTo_of_ne e t c status h).2.2.1
  · intro h
    rw [goTo_of_eq e t c status h]
    exact ⟨rfl, rfl⟩

theorem goTo_redrawCursor_witness :
    (7 : Int) ≠ (editorAt 0 3 10 false).DataY ∧
    ((editorAt 0 3 10 false).GoTo 7 (some ⟨10⟩) none).editor.redrawCursor = true :=
  ⟨by decide, (goTo_redrawCursor (editorAt 0 3 10 false) 7 (some ⟨10⟩) none).1 (by decide)⟩

/-- C10: GoToLineNumber counts from 1: without centering it does exactly what
GoTo does for the index max(n, 1) - 1 (same offsetY and sy, in fact the same
result); every n below 1 behaves as n = 1; and with the cursor on a line of
the buffer the logical line afterwards is max(n, 1) - 1 clamped into the valid
line indices. -/
theorem goToLineNumber_counts_from_one (centerFn : Editor → Option Canvas → Editor)
    (e : Editor) (n : Int) (c : Option Canvas) (status : Option StatusBar) :
    (e.GoToLineNumber centerFn n c status false).editor.pos.offsetY
        = (e.GoTo (max n 1 - 1) c status).editor.pos.offsetY ∧
    (e.GoToLineNumber centerFn n c status false).editor.pos.sy
        = (e.GoTo (max n 1 - 1) c status).editor.pos.sy ∧
    e.GoToLineNumber centerFn n c status false = e.GoTo (max n 1 - 1) c status ∧
    (∀ center : Bool, n < 1 →
      e.GoToLineNumber centerFn n c status center
        = e.GoToLineNumber centerFn 1 c status center) ∧
    (0 ≤ e.DataY ∧ e.DataY < e.Len →
      (e.GoToLineNumber centerFn n c status false).editor.DataY
        = clampLine e.Len (max n 1 - 1)) := by
  have hidx : LineNumber.LineIndex (if n < 1 then 1 else n) = max n 1 - 1 := by
    simp only [LineNumber.LineIndex]
    split_ifs with h
    · rw [max_eq_right (by omega)]
    · rw [max_eq_left (by omega)]
  have hres : e.GoToLineNumber centerFn n c status false = e.GoTo (max n 1 - 1) c status := by
    simp only [Editor.GoToLineNumber, hidx, Bool.and_false, Bool.false_eq_true, if_false]
  refine ⟨by rw [hres], by rw [hres], hres, ?_, ?_⟩
  · intro center hn
    simp only [Editor.GoToLineNumber, if_pos hn]
    simp
  · intro hcur
    rw [hres]
    exact goTo_dataY e (max n 1 - 1) c status hcur

theorem goToLineNumber_counts_from_one_witness :
    ((-4 : Int) < 1 ∧
      (editorAt 40 3 100 false).GoToLineNumber (fun ed _ => ed) (-4) (some ⟨10⟩) none true
        = (editorAt 40 3 100 false).GoToLineNumber (fun ed _ => ed) 1 (some ⟨10⟩) none true) ∧
    ((0 ≤ (editorAt 40 3 100 false).DataY ∧
        (editorAt 40 3 100 false).DataY < (editorAt 40 3 100 false).Len) ∧
      ((editorAt 40 3 100 false).GoToLineNumber (fun ed _ => ed) (-4) (some ⟨10⟩) none
          false).editor.DataY
        = clampLine (editorAt 40 3 100 false).Len (max (-4) 1 - 1)) :=
  ⟨⟨by decide,
      (goToLineNumber_counts_from_one (fun ed _ => ed) (editorAt 40 3 100 false) (-4)
        (some ⟨10⟩) none).2.2.2.1 true (by decide)⟩,
    ⟨by decide,
      (goToLineNumber_counts_from_one (fun ed _ => ed) (editorAt 40 3 100 false) (-4)
        (some ⟨10⟩) none).2.2.2.2 (by decide)⟩⟩

/-! ## Claim C11 -/

/-- C11, evaluated where the code departs from it: with the line "a", tab,
"b", a tab width of 4 and the column 1, nothing of the line precedes the
column, so the width before it is 0; GoToLineNumberAndCol counts the tab that
comes after the column and sets sx to 3. -/
theorem goToLineNumberAndCol_counts_every_tab :
    ((editorAt 0 0 10 false).GoToLineNumberAndCol (fun ed _ => ed)
        (fun _ => "a\tb") 4 1 1 (some ⟨10⟩) none false).editor.pos.sx = 3 ∧
    screenWidthBefore 4 "a\tb" 1 = 0 ∧
    ((editorAt 0 0 10 false).GoToLineNumberAndCol (fun ed _ => ed)
        (fun _ => "\tab") 4 1 2 (some ⟨10⟩) none false).editor.pos.sx = 4 ∧
    screenWidthBefore 4 "\tab" 2 = 4 := by
  decide

/-! ## Helper facts about Go maps -/

theorem find_key_filter {α : Type} (q : Int → Bool) (m : GoMap α) (j : Int) :
    (m.filter (fun p => q p.1)).find? (fun p => p.1 == j)
      = if q j = true then m.find? (fun p => p.1 == j) else none := by
  induction m with
  | nil => simp
  | cons p m ih =>
    by_cases hq : q p.1 = true
    · by_cases hj : p.1 = j
      · have hqj : q j = true := hj ▸ hq
        simp [List.filter_cons, List.find?_cons, hq, hj, hqj]
      · rw [List.filter_cons, if_pos hq, List.find?_cons, List.find?_cons]
        have : (p.1 == j) = false := by simpa using hj
        rw [this]
        exact ih
    · by_cases hj : p.1 = j
      · have hqj : ¬ q j = true := hj ▸ hq
        rw [List.filter_cons, if_neg hq, ih, if_neg hqj, if_neg hqj]
      · rw [List.filter_cons, if_neg hq, ih, List.find?_cons]
        have : (p.1 == j) = false := by simpa using hj
        rw [this]

theorem get_filter {α : Type} (q : Int → Bool) (m : GoMap α) (j : Int) :
    GoMap.get (m.filter (fun p => q p.1)) j = if q j = true then GoMap.get m j else none := by
  unfold GoMap.get
  rw [find_key_filter]
  split_ifs <;> rfl

theorem get_delete {α : Type} (m : GoMap α) (k j : Int) :
    GoMap.get (GoMap.delete m k) j = if j = k then none else GoMap.get m j := by
  have h := get_filter (fun i => i != k) m j
  unfold GoMap.delete
  rw [h]
  by_cases hjk : j = k
  · simp [hjk]
  · simp [hjk]

theorem get_set {α : Type} (m : GoMap α) (k j : Int) (v : α) :
    GoMap.get (GoMap.set m k v) j = if j = k then some v else GoMap.get m j := by
  by_cases hjk : j = k
  · subst hjk
    simp [GoMap.set, GoMap.get, List.find?_cons]
  · have hkj : (k == j) = false := by simpa using fun h : k = j => hjk h.symm
    have h := get_delete m k j
    rw [if_neg hjk] at h
    rw [if_neg hjk, ← h]
    simp only [GoMap.set, GoMap.get, List.find?_cons, hkj]

theorem get_eq_none_iff {α : Type} (m : GoMap α) (k : Int) :
    GoMap.get m k = none ↔ ∀ p ∈ m, p.1 ≠ k := by
  simp [GoMap.get]

theorem mem_of_get_eq_some {α : Type} (m : GoMap α) (k : Int) (v : α)
    (h : GoMap.get m k = some v) : (k, v) ∈ m := by
  simp only [GoMap.get, Option.map_eq_some'] at h
  obtain ⟨p, hp, rfl⟩ := h
  have h1 : p ∈ m := List.mem_of_find?_eq_some hp
  have h2 : p.1 = k := by simpa using List.find?_some hp
  rw [← h2]
  exact h1

theorem delete_of_get_eq_none {α : Type} (m : GoMap α) (k : Int)
    (h : GoMap.get m k = none) : GoMap.delete m k = m := by
  rw [get_eq_none_iff] at h
  simp only [GoMap.delete, List.filter_eq_self]
  intro p hp
  simpa using h p hp

theorem keys_delete_subset {α : Type} (m : GoMap α) (k j : Int)
    (h : j ∈ GoMap.keys (GoMap.delete m k)) : j ∈ GoMap.keys m ∧ j ≠ k := by
  simp only [GoMap.keys, GoMap.delete, List.mem_map, List.mem_filter] at h ⊢
  obtain ⟨p, ⟨hp, hne⟩, rfl⟩ := h
  exact ⟨⟨p, hp, rfl⟩, by simpa using hne⟩

theorem nodup_keys_delete {α : Type} (m : GoMap α) (k : Int)
    (h : (GoMap.keys m).Nodup) : (GoMap.keys (GoMap.delete m k)).Nodup := by
  have hsub : (GoMap.delete m k).Sublist m := List.filter_sublist m
  have hmap := hsub.map (fun (p : Int × α) => p.1)
  exact List.Nodup.sublist hmap h

theorem nodup_keys_set {α : Type} (m : GoMap α) (k : Int) (v : α)
    (h : (GoMap.keys m).Nodup) : (GoMap.keys (GoMap.set m k v)).Nodup := by
  have h1 : GoMap.keys (GoMap.set m k v) = k :: GoMap.keys (GoMap.delete m k) := rfl
  rw [h1, List.nodup_cons]
  exact ⟨fun hk => (keys_delete_subset m k k hk).2 rfl, nodup_keys_delete m k h⟩

theorem get_ne_none_of_mem {α : Type} (m : GoMap α) (p : Int × α) (hp : p ∈ m) :
    GoMap.get m p.1 ≠ none := by
  intro h
  exact (get_eq_none_iff m p.1).mp h p hp rfl

/-! ## Claims C12 and C13: the action "Delete the rest of the file" -/

theorem deleteRestStep_lt (k : Int) (s : MenuState × Bool) (y : Int) (h : y < k) :
    deleteRestStep k s y = s := by
  simp [deleteRestStep, not_le.mpr h]

/-- Once `prepareFunction` is nil the loop only deletes lines. -/
theorem deleteRest_fold_prepared (k : Int) (ks : List Int) (s : MenuState × Bool)
    (h : s.2 = false) :
    (ks.foldl (deleteRestStep k) s).1.snapshots = s.1.snapshots ∧
    (ks.foldl (deleteRestStep k) s).1.changed = s.1.changed ∧
    (ks.foldl (deleteRestStep k) s).1.portalClosed = s.1.portalClosed ∧
    (ks.foldl (deleteRestStep k) s).2 = false := by
  induction ks generalizing s with
  | nil => exact ⟨rfl, rfl, rfl, h⟩
  | cons y ks ih =>
    rw [List.foldl_cons]
    by_cases hy : y ≥ k
    · have hs : deleteRestStep k s y
          = ({ s.1 with lines := GoMap.delete s.1.lines y }, false) := by
        simp [deleteRestStep, hy, h]
      rw [hs]
      exact ih _ rfl
    · rw [deleteRestStep_lt k s y (not_le.mp hy)]
      exact ih s h

/-- While no visited key reaches the cursor line nothing happens. -/
theorem deleteRest_fold_none (k : Int) (ks : List Int) (s : MenuState × Bool)
    (h : ∀ y ∈ ks, y < k) : ks.foldl (deleteRestStep k) s = s := by
  induction ks generalizing s with
  | nil => rfl
  | cons y ks ih =>
    rw [List.foldl_cons, deleteRestStep_lt k s y (h y (List.mem_cons_self y ks))]
    exact ih s (fun z hz => h z (List.mem_cons_of_mem y hz))

/-- With `prepareFunction` still set and a key at or past the cursor line
among those visited, the snapshot is taken once, of the buffer as it was. -/
theorem deleteRest_fold_some (k : Int) (ks : List Int) (s : MenuState × Bool)
    (h : s.2 = true) (hex : ∃ y ∈ ks, y ≥ k) :
    (ks.foldl (deleteRestStep k) s).1.snapshots = (s.1.lines, s.1.pos) :: s.1.snapshots ∧
    (ks.foldl (deleteRestStep k) s).1.changed = true ∧
    (ks.foldl (deleteRestStep k) s).1.portalClosed = s.1.portalClosed + 1 := by
  induction ks generalizing s with
  | nil =>
    obtain ⟨y, hy, -⟩ := hex
    exact absurd hy (List.not_mem_nil y)
  | cons y ks ih =>
    rw [List.foldl_cons]
    by_cases hy : y ≥ k
    · have hs : deleteRestStep k s y =
          ({ prepareFunction s.1 with lines := GoMap.delete s.1.lines y }, false) := by
        simp [deleteRestStep, hy, h, prepareFunction, MenuState.Snapshot]
      rw [hs]
      obtain ⟨h1, h2, h3, -⟩ := deleteRest_fold_prepared k ks
        ({ prepareFunction s.1 with lines := GoMap.delete s.1.lines y }, false) rfl
      exact ⟨h1, h2, h3⟩
    · rw [deleteRestStep_lt k s y (not_le.mp hy)]
      apply ih s h
      obtain ⟨z, hz, hzk⟩ := hex
      rcases List.mem_cons.mp hz with rfl | hz2
      · exact absurd hzk hy
      · exact ⟨z, hz2, hzk⟩

/-- The lines left by the loop over the keys `ks`. -/
theorem deleteRest_fold_lines (k : Int) (ks : List Int) (s : MenuState × Bool) :
    (ks.foldl (deleteRestStep k) s).1.lines
      = s.1.lines.filter (fun p => !(decide (k ≤ p.1) && decide (p.1 ∈ ks))) := by
  induction ks generalizing s with
  | nil => simp
  | cons y ks ih =>
    rw [List.foldl_cons, ih]
    by_cases hy : y ≥ k
    · have hl : (deleteRestStep k s y).1.lines = GoMap.delete s.1.lines y := by
        simp only [deleteRestStep, if_pos hy]
        split_ifs <;> rfl
      rw [hl, GoMap.delete, List.filter_filter]
      apply List.filter_congr
      intro p _
      by_cases h1 : p.1 = y
      · simp [h1, hy]
      · simp [h1]
    · rw [deleteRestStep_lt k s y (not_le.mp hy)]
      apply List.filter_congr
      intro p _
      by_cases h1 : p.1 = y
      · have : ¬ k ≤ p.1 := h1 ▸ hy
        simp [this]
      · simp [h1]

/-- The lines left by the deletion loop are the entries below the cursor. -/
theorem deleteRestLoop_lines (k : Int) (e : MenuState) :
    (deleteRestLoop k e).1.lines = e.lines.filter (fun p => decide (p.1 < k)) := by
  rw [deleteRestLoop, deleteRest_fold_lines]
  apply List.filter_congr
  intro p hp
  have hmem : p.1 ∈ GoMap.keys e.lines := List.mem_map_of_mem (fun p => p.1) hp
  by_cases h1 : p.1 < k
  · simp [h1, not_le.mpr h1]
  · simp [h1, not_lt.mp h1, hmem]

/-- C12: for every line map and every cursor line index k the deletion loop of
"Delete the rest of the file" leaves exactly the entries whose key is below k,
each with its text and under its old key; so a key j is found afterwards
exactly when j is below k and was found before, and a buffer whose keys were
the numbers 0 to n - 1 ends with the keys 0 to min(k, n) - 1. -/
theorem deleteRestLoop_removes_exactly_keys_from_cursor (k : Int) (e : MenuState) :
    (deleteRestLoop k e).1.lines = e.lines.filter (fun p => decide (p.1 < k)) ∧
    (∀ j : Int, GoMap.get (deleteRestLoop k e).1.lines j
        = if j < k then GoMap.get e.lines j else none) ∧
    (∀ n : Int, (∀ j : Int, j ∈ GoMap.keys e.lines ↔ 0 ≤ j ∧ j < n) →
      ∀ j : Int, j ∈ GoMap.keys (deleteRestLoop k e).1.lines ↔ 0 ≤ j ∧ j < min k n) := by
  refine ⟨deleteRestLoop_lines k e, ?_, ?_⟩
  · intro j
    rw [deleteRestLoop_lines, get_filter (fun i => decide (i < k)) e.lines j]
    simp
  · intro n hkeys j
    have hmem : j ∈ GoMap.keys (deleteRestLoop k e).1.lines
        ↔ j ∈ GoMap.keys e.lines ∧ j < k := by
      rw [deleteRestLoop_lines]
      simp only [GoMap.keys, List.mem_map, List.mem_filter, decide_eq_true_eq]
      constructor
      · rintro ⟨p, ⟨hp, hlt⟩, rfl⟩
        exact ⟨⟨p, hp, rfl⟩, hlt⟩
      · rintro ⟨⟨p, hp, rfl⟩, hlt⟩
        exact ⟨p, ⟨hp, hlt⟩, rfl⟩
    rw [hmem, hkeys j]
    omega

theorem deleteRestLoop_removes_exactly_keys_from_cursor_witness :
    (∀ j : Int, j ∈ GoMap.keys (fiveLines 2).lines ↔ 0 ≤ j ∧ j < 5) ∧
    (deleteRestLoop 2 (fiveLines 2)).1.lines = [(0, "a"), (1, "b")] ∧
    (∀ j : Int, j ∈ GoMap.keys (deleteRestLoop 2 (fiveLines 2)).1.lines
      ↔ 0 ≤ j ∧ j < min 2 5) := by
  have h : ∀ j : Int, j ∈ GoMap.keys (fiveLines 2).lines ↔ 0 ≤ j ∧ j < 5 := by
    intro j
    simp only [GoMap.keys, fiveLines, List.map, List.mem_cons, List.mem_nil_iff, or_false]
    omega
  exact ⟨h, by decide,
    (deleteRestLoop_removes_exactly_keys_from_cursor 2 (fiveLines 2)).2.2 5 h⟩

/-- C13: in "Delete the rest of the file", when some key of the line map is at
or past the cursor line, exactly one snapshot is pushed and it holds the whole
buffer as it was before the action (so it was taken before the first line was
deleted), and the file is marked as changed; when no key is at or past the
cursor line, no snapshot is taken, the loop deletes no line and the changed
flag stays as it was. -/
theorem deleteRest_snapshot_once_before_deleting
    (makeConsistent : GoMap String → GoMap String) (e : MenuState) :
    ((∃ y ∈ GoMap.keys e.lines, y ≥ e.pos.offsetY + e.pos.sy) →
      (deleteRestOfFile makeConsistent e).snapshots = (e.lines, e.pos) :: e.snapshots ∧
      (deleteRestOfFile makeConsistent e).changed = true) ∧
    ((∀ y ∈ GoMap.keys e.lines, y < e.pos.offsetY + e.pos.sy) →
      (deleteRestOfFile makeConsistent e).snapshots = e.snapshots ∧
      (deleteRestLoop (e.pos.offsetY + e.pos.sy) e).1.lines = e.lines ∧
      (deleteRestOfFile makeConsistent e).changed = e.changed) := by
  constructor
  · intro hex
    obtain ⟨h1, h2, -⟩ := deleteRest_fold_some (e.pos.offsetY + e.pos.sy)
      (GoMap.keys e.lines) (e, true) rfl hex
    have h1b : (deleteRestLoop (e.pos.offsetY + e.pos.sy) e).1.snapshots
        = (e.lines, e.pos) :: e.snapshots := h1
    have h2b : (deleteRestLoop (e.pos.offsetY + e.pos.sy) e).1.changed = true := h2
    simp only [deleteRestOfFile, h2b, if_true]
    exact ⟨h1b, trivial⟩
  · intro hnone
    have h : deleteRestLoop (e.pos.offsetY + e.pos.sy) e = (e, true) :=
      deleteRest_fold_none (e.pos.offsetY + e.pos.sy) (GoMap.keys e.lines) (e, true) hnone
    simp only [deleteRestOfFile, h]
    refine ⟨?_, trivial, ?_⟩ <;> split_ifs <;> rfl

theorem deleteRest_snapshot_once_before_deleting_witness :
    ((∃ y ∈ GoMap.keys (fiveLines 2).lines,
        y ≥ (fiveLines 2).pos.offsetY + (fiveLines 2).pos.sy) ∧
      (deleteRestOfFile (fun m => m) (fiveLines 2)).snapshots
        = ((fiveLines 2).lines, (fiveLines 2).pos) :: (fiveLines 2).snapshots ∧
      (deleteRestOfFile (fun m => m) (fiveLines 2)).changed = true) ∧
    ((∀ y ∈ GoMap.keys (fiveLines 7).lines,
        y < (fiveLines 7).pos.offsetY + (fiveLines 7).pos.sy) ∧
      (deleteRestOfFile (fun m => m) (fiveLines 7)).snapshots = (fiveLines 7).snapshots ∧
      (deleteRestLoop ((fiveLines 7).pos.offsetY + (fiveLines 7).pos.sy)
        (fiveLines 7)).1.lines = (fiveLines 7).lines ∧
      (deleteRestOfFile (fun m => m) (fiveLines 7)).changed = (fiveLines 7).changed) :=
  ⟨⟨by decide,
      (deleteRest_snapshot_once_before_deleting (fun m => m) (fiveLines 2)).1 (by decide)⟩,
    ⟨by decide,
      (deleteRest_snapshot_once_before_deleting (fun m => m) (fiveLines 7)).2 (by decide)⟩⟩

/-! ## Claims C16 to C18: the Actions type -/

theorem get_nil {α : Type} (k : Int) : GoMap.get ([] : GoMap α) k = none := rfl

/-- State of the maps after the loop of NewActions2. -/
theorem newActions2_loop_spec {F : Type} (fs : List F) (rest : List String) (i : Nat)
    (a : Actions F) (hlen : i + rest.length ≤ fs.length) :
    ∃ a1, NewActions2.loop fs i rest a = some a1 ∧
      (∀ k : Int, GoMap.get a1.actionTitles k =
        if (i : Int) ≤ k ∧ k < i + rest.length then rest[(k - i).toNat]?
        else GoMap.get a.actionTitles k) ∧
      (∀ k : Int, GoMap.get a1.actionFunctions k =
        if (i : Int) ≤ k ∧ k < i + rest.length then fs[k.toNat]?
        else GoMap.get a.actionFunctions k) := by
  induction rest generalizing i a with
  | nil =>
    refine ⟨a, rfl, ?_, ?_⟩ <;> intro k <;> rw [if_neg] <;> simp
  | cons t rest ih =>
    have hi : i < fs.length := by simp at hlen; omega
    have hf : fs[i]? = some fs[i] := List.getElem?_eq_getElem hi
    obtain ⟨a1, h1, ht, hfn⟩ := ih (i + 1)
      ⟨GoMap.set a.actionTitles i t, GoMap.set a.actionFunctions i fs[i]⟩
      (by simp at hlen ⊢; omega)
    refine ⟨a1, ?_, ?_, ?_⟩
    · simp only [NewActions2.loop, hf]
      exact h1
    · intro k
      rw [ht k, get_set]
      simp only [List.length_cons, Nat.cast_add, Nat.cast_one]
      by_cases hk : k = i
      · subst hk
        simp
      · by_cases hr : ((i : Int) + 1 ≤ k ∧ k < i + 1 + rest.length)
        · have hr2 : ((i : Int) ≤ k ∧ k < i + (rest.length + 1)) := by omega
          rw [if_pos hr, if_pos hr2]
          have : (k - i).toNat = (k - (i + 1)).toNat + 1 := by omega
          rw [this, List.getElem?_cons_succ]
        · have hr2 : ¬ ((i : Int) ≤ k ∧ k < i + (rest.length + 1)) := by omega
          rw [if_neg hr, if_neg hr2, if_neg hk]
    · intro k
      rw [hfn k, get_set]
      simp only [List.length_cons, Nat.cast_add, Nat.cast_one]
      by_cases hk : k = i
      · subst hk
        simp [hf]
      · by_cases hr : ((i : Int) + 1 ≤ k ∧ k < i + 1 + rest.length)
        · have hr2 : ((i : Int) ≤ k ∧ k < i + (rest.length + 1)) := by omega
          rw [if_pos hr, if_pos hr2]
        · have hr2 : ¬ ((i : Int) ≤ k ∧ k < i + (rest.length + 1)) := by omega
          rw [if_neg hr, if_neg hr2, if_neg hk]

/-- The loop of MenuChoices over entries with distinct keys that all lie
inside the slice writes each entry at its key and nothing else. -/
theorem menuChoices_fill_spec (m : List (Int × String)) (slice : List String)
    (hnd : (GoMap.keys m).Nodup)
    (hin : ∀ p ∈ m, 0 ≤ p.1 ∧ p.1 < slice.length) :
    ∃ out, MenuChoices.fill m slice = some out ∧ out.length = slice.length ∧
      (∀ p ∈ m, out[p.1.toNat]? = some (menuChoiceText p.1 p.2)) ∧
      (∀ j : Nat, (∀ p ∈ m, p.1 ≠ j) → out[j]? = slice[j]?) := by
  induction m generalizing slice with
  | nil => exact ⟨slice, rfl, rfl, fun p hp => absurd hp (List.not_mem_nil p), fun j _ => rfl⟩
  | cons q rest ih =>
    obtain ⟨i, d⟩ := q
    have hi := hin (i, d) (List.mem_cons_self _ _)
    have hnd2 : i ∉ GoMap.keys rest ∧ (GoMap.keys rest).Nodup := List.nodup_cons.mp hnd
    obtain ⟨out, h1, h2, h3, h4⟩ := ih (slice.set i.toNat (menuChoiceText i d)) hnd2.2
      (fun p hp => by
        have := hin p (List.mem_cons_of_mem _ hp)
        simpa using this)
    refine ⟨out, ?_, ?_, ?_, ?_⟩
    · simp only [MenuChoices.fill, if_pos hi]
      exact h1
    · simpa using h2
    · intro p hp
      rcases List.mem_cons.mp hp with rfl | hp2
      · have hnot : ∀ p ∈ rest, p.1 ≠ ((i.toNat : Nat) : Int) := by
          intro p hp hpe
          apply hnd2.1
          have : p.1 = i := by omega
          rw [← this]
          exact List.mem_map_of_mem (fun p => p.1) hp
        rw [h4 i.toNat hnot]
        exact List.getElem?_set_self (by omega)
      · exact h3 p hp2
    · intro j hj
      have hnot : ∀ p ∈ rest, p.1 ≠ (j : Int) := fun p hp => hj p (List.mem_cons_of_mem _ hp)
      have hji : i ≠ (j : Int) := hj (i, d) (List.mem_cons_self _ _)
      rw [h4 j hnot]
      exact List.getElem?_set_ne (by omega)

/-- After the Add calls the keys are 0 to n - 1, title and function of the
i-th call under key i. -/
theorem addedInOrder_spec {F : Type} (l : List (String × F)) :
    GoMap.len (addedInOrder l).actionTitles = l.length ∧
    (GoMap.keys (addedInOrder l).actionTitles).Nodup ∧
    (∀ k : Int, GoMap.get (addedInOrder l).actionTitles k =
      if 0 ≤ k ∧ k < l.length then (l[k.toNat]?).map (fun p => p.1) else none) ∧
    (∀ k : Int, GoMap.get (addedInOrder l).actionFunctions k =
      if 0 ≤ k ∧ k < l.length then (l[k.toNat]?).map (fun p => p.2) else none) := by
  induction l using List.reverseRecOn with
  | nil =>
    refine ⟨rfl, List.nodup_nil, ?_, ?_⟩ <;> intro k <;> rw [if_neg] <;>
      simp [addedInOrder, NewActions, GoMap.get]
  | append_singleton l x ih =>
    obtain ⟨hlen, hnd, ht, hf⟩ := ih
    have hstep : addedInOrder (l ++ [x]) = (addedInOrder l).Add x.1 x.2 := by
      simp [addedInOrder, List.foldl_append]
    have hnone : GoMap.get (addedInOrder l).actionTitles (l.length : Int) = none := by
      rw [ht, if_neg (by omega)]
    rw [hstep]
    simp only [Actions.Add, hlen]
    refine ⟨?_, nodup_keys_set _ _ _ hnd, ?_, ?_⟩
    · rw [GoMap.set, delete_of_get_eq_none _ _ hnone]
      simp only [GoMap.len] at hlen ⊢
      simp only [List.length_cons, List.length_append, List.length_nil, Nat.cast_add,
        Nat.cast_one, Nat.cast_zero]
      omega
    · intro k
      rw [get_set, ht k]
      simp only [List.length_append, List.length_singleton, Nat.cast_add, Nat.cast_one]
      by_cases hk : k = l.length
      · subst hk
        rw [if_pos rfl, if_pos (by omega)]
        simp
      · rw [if_neg hk]
        by_cases hr : 0 ≤ k ∧ k < l.length
        · rw [if_pos hr, if_pos (by omega), List.getElem?_append_left (by omega)]
        · rw [if_neg hr, if_neg (by omega)]
    · intro k
      rw [get_set, hf k]
      simp only [List.length_append, List.length_singleton, Nat.cast_add, Nat.cast_one]
      by_cases hk : k = l.length
      · subst hk
        rw [if_pos rfl, if_pos (by omega)]
        simp
      · rw [if_neg hk]
        by_cases hr : 0 ≤ k ∧ k < l.length
        · rw [if_pos hr, if_pos (by omega), List.getElem?_append_left (by omega)]
        · rw [if_neg hr, if_neg (by omega)]

/-- C16: NewActions2 returns an error, and no Actions, exactly when the two
slices differ in length; for slices of one length it returns an Actions in
which every key i below the length holds titles[i] and functions[i] and no
other key holds anything. -/
theorem newActions2_error_iff_lengths_differ {F : Type} (titles : List String)
    (functions : List F) :
    ((∃ msg, NewActions2 titles functions = GoResult.err msg)
      ↔ titles.length ≠ functions.length) ∧
    (titles.length = functions.length →
      ∃ a, NewActions2 titles functions = GoResult.ok a ∧
        (∀ i : Nat, i < titles.length →
          GoMap.get a.actionTitles i = titles[i]? ∧
          GoMap.get a.actionFunctions i = functions[i]?) ∧
        (∀ k : Int, (k < 0 ∨ (titles.length : Int) ≤ k) →
          GoMap.get a.actionTitles k = none ∧ GoMap.get a.actionFunctions k = none)) := by
  constructor
  · constructor
    · rintro ⟨msg, h⟩
      by_contra hne
      obtain ⟨a1, h1, -, -⟩ := newActions2_loop_spec functions titles 0 NewActions
        (by omega)
      simp [NewActions2, hne, h1] at h
    · intro hne
      exact ⟨"length of action titles and action functions differ",
        by simp [NewActions2, hne]⟩
  · intro heq
    obtain ⟨a1, h1, ht, hf⟩ := newActions2_loop_spec functions titles 0 NewActions
      (by omega)
    refine ⟨a1, by simp [NewActions2, heq, h1], ?_, ?_⟩
    · intro i hi
      have hi2 : ((0 : Nat) : Int) ≤ (i : Int) ∧ (i : Int) < (0 : Nat) + titles.length := by
        omega
      constructor
      · rw [ht i, if_pos hi2]
        simp
      · rw [hf i, if_pos hi2]
        simp
    · intro k hk
      have hk2 : ¬ (((0 : Nat) : Int) ≤ k ∧ k < (0 : Nat) + titles.length) := by omega
      rw [ht k, hf k, if_neg hk2, if_neg hk2]
      exact ⟨rfl, rfl⟩

theorem newActions2_error_iff_lengths_differ_witness :
    ["Save and quit", "Sort"].length = [(1 : Nat), 2].length ∧
    ∃ a, NewActions2 ["Save and quit", "Sort"] [(1 : Nat), 2] = GoResult.ok a ∧
      (∀ i : Nat, i < ["Save and quit", "Sort"].length →
        GoMap.get a.actionTitles i = ["Save and quit", "Sort"][i]? ∧
        GoMap.get a.actionFunctions i = [(1 : Nat), 2][i]?) ∧
      (∀ k : Int, (k < 0 ∨ ((["Save and quit", "Sort"].length : Nat) : Int) ≤ k) →
        GoMap.get a.actionTitles k = none ∧ GoMap.get a.actionFunctions k = none) :=
  ⟨rfl, (newActions2_error_iff_lengths_differ ["Save and quit", "Sort"] [(1 : Nat), 2]).2 rfl⟩

/-- C17: for an Actions value built by NewActions and then one Add call for
each pair of `l`, the title map and the function map hold exactly the keys 0
to n - 1; MenuChoices returns, whatever the order in which the map is visited
and without a write outside the slice, the list whose i-th element is "[i] "
followed by the i-th title; and Perform(i) runs the i-th function (and nothing
for an i that holds none). -/
theorem actions_labels_and_functions_stay_aligned {σ : Type} (l : List (String × (σ → σ))) :
    (∀ k : Int, (GoMap.get (addedInOrder l).actionTitles k).isSome = true
        ↔ 0 ≤ k ∧ k < l.length) ∧
    (∀ k : Int, (GoMap.get (addedInOrder l).actionFunctions k).isSome = true
        ↔ 0 ≤ k ∧ k < l.length) ∧
    (∀ order : List (Int × String), order.Perm (addedInOrder l).actionTitles →
      (addedInOrder l).MenuChoicesIn order
        = some (l.mapIdx (fun i p => menuChoiceText i p.1))) ∧
    (addedInOrder l).MenuChoices = some (l.mapIdx (fun i p => menuChoiceText i p.1)) ∧
    (∀ (i : Nat) (s : σ), (addedInOrder l).Perform i s = (l[i]?).map (fun p => p.2 s)) := by
  obtain ⟨hlen, hnd, ht, hf⟩ := addedInOrder_spec l
  have hkeys : ∀ k : Int, 0 ≤ k ∧ k < l.length → ∃ x, l[k.toNat]? = some x := by
    intro k hk
    have hlt : k.toNat < l.length := by omega
    exact ⟨l[k.toNat], List.getElem?_eq_getElem hlt⟩
  have hord : ∀ order : List (Int × String), order.Perm (addedInOrder l).actionTitles →
      (addedInOrder l).MenuChoicesIn order
        = some (l.mapIdx (fun i p => menuChoiceText i p.1)) := by
    intro order hperm
    have hnd2 : (GoMap.keys order).Nodup :=
      (hperm.map (fun (p : Int × String) => p.1)).nodup_iff.mpr hnd
    have hrange : ∀ p ∈ order, 0 ≤ p.1 ∧ p.1 < (l.length : Int) := by
      intro p hp
      have hne := get_ne_none_of_mem _ p (hperm.mem_iff.mp hp)
      rw [ht p.1] at hne
      by_contra hcon
      exact hne (if_neg hcon)
    have hslice : (List.replicate (GoMap.len (addedInOrder l).actionTitles).toNat "").length
        = l.length := by
      rw [hlen]
      simp
    obtain ⟨out, h1, h2, h3, -⟩ := menuChoices_fill_spec order
      (List.replicate (GoMap.len (addedInOrder l).actionTitles).toNat "") hnd2
      (fun p hp => by rw [hslice]; exact hrange p hp)
    rw [Actions.MenuChoicesIn, h1]
    congr 1
    apply List.ext_getElem?
    intro j
    rw [List.getElem?_mapIdx]
    by_cases hj : j < l.length
    · have hget : GoMap.get (addedInOrder l).actionTitles (j : Int) = some (l[j]).1 := by
        rw [ht, if_pos (by omega)]
        simp [List.getElem?_eq_getElem hj]
      have hmem := hperm.mem_iff.mpr (mem_of_get_eq_some _ _ _ hget)
      have := h3 _ hmem
      simp only [Int.toNat_ofNat] at this
      rw [this, List.getElem?_eq_getElem hj]
      rfl
    · rw [List.getElem?_eq_none (by omega), List.getElem?_eq_none (by omega)]
      rfl
  refine ⟨?_, ?_, hord, hord _ (List.Perm.refl _), ?_⟩
  · intro k
    rw [ht k]
    by_cases hk : 0 ≤ k ∧ k < l.length
    · obtain ⟨x, hx⟩ := hkeys k hk
      simp [hk, hx]
    · simp [hk]
  · intro k
    rw [hf k]
    by_cases hk : 0 ≤ k ∧ k < l.length
    · obtain ⟨x, hx⟩ := hkeys k hk
      simp [hk, hx]
    · simp [hk]
  · intro i s
    rw [Actions.Perform, hf]
    by_cases hi : i < l.length
    · rw [if_pos (by omega)]
      simp [List.getElem?_eq_getElem hi]
    · rw [if_neg (by omega), List.getElem?_eq_none (by omega)]
      rfl

theorem actions_labels_and_functions_stay_aligned_witness :
    (addedInOrder [("Save", fun n : Nat => n + 1), ("Quit", fun n : Nat => n * 2)]).MenuChoicesIn
        [(0, "Save"), (1, "Quit")]
      = some ["[0] Save", "[1] Quit"] ∧
    (addedInOrder [("Save", fun n : Nat => n + 1), ("Quit", fun n : Nat => n * 2)]).Perform
        1 5 = some 10 :=
  ⟨(actions_labels_and_functions_stay_aligned
      [("Save", fun n : Nat => n + 1), ("Quit", fun n : Nat => n * 2)]).2.2.1
      [(0, "Save"), (1, "Quit")] (by decide),
    (actions_labels_and_functions_stay_aligned
      [("Save", fun n : Nat => n + 1), ("Quit", fun n : Nat => n * 2)]).2.2.2.2 1 5⟩

/-- C18 as stated fails: in an Actions value whose only key is 1 (one title,
so len(a.actionTitles) = 1), a successful AddCommand writes at key 1, which is
taken: the old title and function are overwritten and the number of entries
stays 1, so the value does not gain an entry. -/
theorem addCommand_overwrites_counterexample :
    GoMap.len (⟨[(1, "old")], [(1, 7)]⟩ : Actions Nat).actionTitles = 1 ∧
    GoMap.get (⟨[(1, "old")], [(1, 7)]⟩ : Actions Nat).actionTitles 1 = some "old" ∧
    ((⟨[(1, "old")], [(1, 7)]⟩ : Actions Nat).AddCommand (Except.ok 9) "new").2 = none ∧
    GoMap.len ((⟨[(1, "old")], [(1, 7)]⟩ : Actions Nat).AddCommand (Except.ok 9)
      "new").1.actionTitles = 1 ∧
    GoMap.get ((⟨[(1, "old")], [(1, 7)]⟩ : Actions Nat).AddCommand (Except.ok 9)
      "new").1.actionTitles 1 = some "new" ∧
    GoMap.get ((⟨[(1, "old")], [(1, 7)]⟩ : Actions Nat).AddCommand (Except.ok 9)
      "new").1.actionFunctions 1 = some 9 ∧
    ¬ (GoMap.len ((⟨[(1, "old")], [(1, 7)]⟩ : Actions Nat).AddCommand (Except.ok 9)
        "new").1.actionTitles
      = GoMap.len (⟨[(1, "old")], [(1, 7)]⟩ : Actions Nat).actionTitles + 1) := by
  decide

/-- C18, amended: AddCommand is atomic. When `e.CommandToFunction` returns an
error, AddCommand returns that error and leaves the titles and functions as
they were. When it returns a function, AddCommand returns no error, the key
len(a.actionTitles) of before the call holds the given title and that
function, and every other key holds what it held; the number of titles grows
by one when that key was free, as it is in every Actions value made by
NewActions and Add calls. -/
theorem addCommand_is_atomic {F : Type} (a : Actions F) (looked : Except String F)
    (title : String) :
    (∀ err, looked = Except.error err → a.AddCommand looked title = (a, some err)) ∧
    (∀ f, looked = Except.ok f →
      (a.AddCommand looked title).2 = none ∧
      GoMap.get (a.AddCommand looked title).1.actionTitles (GoMap.len a.actionTitles)
        = some title ∧
      GoMap.get (a.AddCommand looked title).1.actionFunctions (GoMap.len a.actionTitles)
        = some f ∧
      (∀ k : Int, k ≠ GoMap.len a.actionTitles →
        GoMap.get (a.AddCommand looked title).1.actionTitles k = GoMap.get a.actionTitles k ∧
        GoMap.get (a.AddCommand looked title).1.actionFunctions k
          = GoMap.get a.actionFunctions k) ∧
      (GoMap.get a.actionTitles (GoMap.len a.actionTitles) = none →
        GoMap.len (a.AddCommand looked title).1.actionTitles
          = GoMap.len a.actionTitles + 1)) ∧
    (∀ l : List (String × F), a = addedInOrder l →
      GoMap.get a.actionTitles (GoMap.len a.actionTitles) = none) := by
  refine ⟨?_, ?_, ?_⟩
  · rintro err rfl
    rfl
  · rintro f rfl
    simp only [Actions.AddCommand, Actions.Add]
    refine ⟨trivial, ?_, ?_, ?_, ?_⟩
    · rw [get_set, if_pos rfl]
    · rw [get_set, if_pos rfl]
    · intro k hk
      rw [get_set, get_set, if_neg hk, if_neg hk]
      exact ⟨rfl, rfl⟩
    · intro hnone
      rw [GoMap.set, delete_of_get_eq_none _ _ hnone]
      simp [GoMap.len]
  · rintro l rfl
    obtain ⟨hlen, -, htitles, -⟩ := addedInOrder_spec l
    rw [htitles, hlen, if_neg]
    omega

theorem addCommand_is_atomic_witness :
    ((Except.error "unknown command" : Except String Nat) = Except.error "unknown command" ∧
      (addedInOrder [("Save", (1 : Nat))]).AddCommand (Except.error "unknown command") "Sort"
        = (addedInOrder [("Save", (1 : Nat))], some "unknown command")) ∧
    ((Except.ok 2 : Except String Nat) = Except.ok 2 ∧
      GoMap.get (addedInOrder [("Save", (1 : Nat))]).actionTitles
          (GoMap.len (addedInOrder [("Save", (1 : Nat))]).actionTitles) = none ∧
      GoMap.len ((addedInOrder [("Save", (1 : Nat))]).AddCommand (Except.ok 2)
          "Sort").1.actionTitles
        = GoMap.len (addedInOrder [("Save", (1 : Nat))]).actionTitles + 1) :=
  ⟨⟨rfl, (addCommand_is_atomic (addedInOrder [("Save", (1 : Nat))])
      (Except.error "unknown command") "Sort").1 "unknown command" rfl⟩,
    ⟨rfl, by decide,
      ((addCommand_is_atomic (addedInOrder [("Save", (1 : Nat))]) (Except.ok 2)
        "Sort").2.1 2 rfl).2.2.2.2 (by decide)⟩⟩

/-! ## Claims C14 and C15: the command menu of src/command.go -/

theorem newActions2_initial (t0 t1 t2 t3 t4 : String) (f0 f1 f2 f3 f4 : MenuFunction) :
    NewActions2 [t0, t1, t2, t3, t4] [f0, f1, f2, f3, f4]
      = GoResult.ok (addedInOrder [(t0, f0), (t1, f1), (t2, f2), (t3, f3), (t4, f4)]) := by
  rfl

theorem commandMenu_actions_eq (cfg : MenuConfig) :
    CommandMenu.actions cfg = some (addedInOrder (CommandMenu.items cfg)) := by
  obtain ⟨wt, ww, pk, nc, sh, fo, lp, np, li⟩ := cfg
  simp only [CommandMenu.actions, newActions2_initial]
  cases pk <;> cases nc <;> cases fo <;> cases li <;> cases lp <;> cases np <;> rfl

/-- A title and a function stand under one key of the maps built by the Add
calls exactly when the pair was added. -/
theorem addedInOrder_item_iff {F : Type} (l : List (String × F)) (t : String) (f : F) :
    (∃ k : Int, GoMap.get (addedInOrder l).actionTitles k = some t ∧
        GoMap.get (addedInOrder l).actionFunctions k = some f) ↔ (t, f) ∈ l := by
  obtain ⟨-, -, ht, hf⟩ := addedInOrder_spec l
  constructor
  · rintro ⟨k, h1, h2⟩
    rw [ht k] at h1
    rw [hf k] at h2
    by_cases hk : 0 ≤ k ∧ k < l.length
    · rw [if_pos hk] at h1 h2
      have hlt : k.toNat < l.length := by omega
      rw [List.getElem?_eq_getElem hlt] at h1 h2
      simp only [Option.map_some', Option.some.injEq] at h1 h2
      have : l[k.toNat] = (t, f) := Prod.ext h1 h2
      rw [← this]
      exact List.getElem_mem hlt
    · rw [if_neg hk] at h1
      cases h1
  · intro hmem
    obtain ⟨i, hi, hil⟩ := List.getElem_of_mem hmem
    refine ⟨(i : Int), ?_, ?_⟩
    · rw [ht, if_pos (by omega)]
      simp [List.getElem?_eq_getElem hi, hil]
    · rw [hf, if_pos (by omega)]
      simp [List.getElem?_eq_getElem hi, hil]

/-- A function stands under some key of the maps built by the Add calls
exactly when it was added. -/
theorem addedInOrder_function_iff {F : Type} (l : List (String × F)) (f : F) :
    (∃ k : Int, GoMap.get (addedInOrder l).actionFunctions k = some f)
      ↔ f ∈ l.map (fun p => p.2) := by
  obtain ⟨-, -, ht, hf⟩ := addedInOrder_spec l
  rw [List.mem_map]
  constructor
  · rintro ⟨k, h2⟩
    have h2b := h2
    rw [hf k] at h2b
    by_cases hk : 0 ≤ k ∧ k < l.length
    · have hlt : k.toNat < l.length := by omega
      rw [if_pos hk, List.getElem?_eq_getElem hlt] at h2b
      simp only [Option.map_some', Option.some.injEq] at h2b
      exact ⟨l[k.toNat], List.getElem_mem hlt, h2b⟩
    · rw [if_neg hk] at h2b
      cases h2b
  · rintro ⟨p, hmem, rfl⟩
    obtain ⟨k, -, h2⟩ := (addedInOrder_item_iff l p.1 p.2).mpr hmem
    exact ⟨k, h2⟩

/-- The functions CommandMenu in command.go registers, in order. -/
theorem commandMenu_items_functions (cfg : MenuConfig) :
    (CommandMenu.items cfg).map (fun p => p.2) =
      [MenuFunction.saveAndQuit, MenuFunction.toggleWrapWhenTyping, MenuFunction.wordWrap,
        MenuFunction.sortStrings, MenuFunction.insertFile]
      ++ (if cfg.isPKGBUILD then [MenuFunction.callGuessica] else [])
      ++ (if !cfg.envNoColor then [MenuFunction.toggleSyntaxHighlight] else [])
      ++ (if cfg.forced then [MenuFunction.unlock] else [])
      ++ (match cfg.loadPortal with
          | some _ => [MenuFunction.closePortal]
          | none =>
            match cfg.newPortal with
            | some portal => [MenuFunction.openPortal portal]
            | none => [])
      ++ [MenuFunction.defaultTheme]
      ++ (if !cfg.light && !cfg.envNoColor then
            [MenuFunction.redBlackTheme, MenuFunction.lightTheme, MenuFunction.colorTheme 0,
              MenuFunction.colorTheme 1, MenuFunction.colorTheme 2]
          else []) := by
  obtain ⟨wt, ww, pk, nc, sh, fo, lp, np, li⟩ := cfg
  cases pk <;> cases nc <;> cases fo <;> cases li <;> cases lp <;> cases np <;> rfl

/-- Only the function literal of "Open portal at ..." calls `portal.Save()`. -/
theorem portalSave_only_in_openPortal (f : MenuFunction)
    (h : Call.PortalSave ∈ f.calls) : ∃ p, f = MenuFunction.openPortal p := by
  cases f <;> simp [MenuFunction.calls] at h ⊢

/-- C15: the command menu of command.go is single-slot for portals. Whatever
LoadPortal and NewPortal return, the menu is built; it holds the "Close
portal" function exactly when LoadPortal succeeds, an "Open portal" function
exactly when LoadPortal fails and NewPortal succeeds, never both; the only
registered functions that call portal.Save are "Open portal" ones, so no
function of a menu built while a portal could be loaded calls it; and the
items carry the titles "Close portal at ..." and "Open portal at ...". -/
theorem commandMenu_portal_single_slot (cfg : MenuConfig) :
    ∃ a, CommandMenu.actions cfg = some a ∧
      ((∃ k : Int, GoMap.get a.actionFunctions k = some MenuFunction.closePortal)
        ↔ cfg.loadPortal.isSome = true) ∧
      ((∃ (k : Int) (p : String),
          GoMap.get a.actionFunctions k = some (MenuFunction.openPortal p))
        ↔ cfg.loadPortal = none ∧ cfg.newPortal.isSome = true) ∧
      ¬ ((∃ k : Int, GoMap.get a.actionFunctions k = some MenuFunction.closePortal) ∧
          (∃ (k : Int) (p : String),
            GoMap.get a.actionFunctions k = some (MenuFunction.openPortal p))) ∧
      (∀ (k : Int) (f : MenuFunction), GoMap.get a.actionFunctions k = some f →
        Call.PortalSave ∈ f.calls → ∃ p, f = MenuFunction.openPortal p) ∧
      (cfg.loadPortal.isSome = true →
        ∀ (k : Int) (f : MenuFunction), GoMap.get a.actionFunctions k = some f →
          Call.PortalSave ∉ f.calls) ∧
      (∀ p : String, cfg.loadPortal = some p →
        ∃ k : Int, GoMap.get a.actionTitles k = some ("Close portal at " ++ p) ∧
          GoMap.get a.actionFunctions k = some MenuFunction.closePortal) ∧
      (∀ p : String, cfg.loadPortal = none → cfg.newPortal = some p →
        ∃ k : Int, GoMap.get a.actionTitles k = some ("Open portal at " ++ p) ∧
          GoMap.get a.actionFunctions k = some (MenuFunction.openPortal p)) := by
  refine ⟨_, commandMenu_actions_eq cfg, ?_⟩
  have hclose : (∃ k : Int, GoMap.get (addedInOrder (CommandMenu.items cfg)).actionFunctions k
      = some MenuFunction.closePortal) ↔ cfg.loadPortal.isSome = true := by
    rw [addedInOrder_function_iff, commandMenu_items_functions]
    obtain ⟨wt, ww, pk, nc, sh, fo, lp, np, li⟩ := cfg
    cases pk <;> cases nc <;> cases fo <;> cases li <;> cases lp <;> cases np <;> simp
  have hopen : (∃ (k : Int) (p : String),
      GoMap.get (addedInOrder (CommandMenu.items cfg)).actionFunctions k
        = some (MenuFunction.openPortal p))
      ↔ cfg.loadPortal = none ∧ cfg.newPortal.isSome = true := by
    have hswap : (∃ (k : Int) (p : String),
        GoMap.get (addedInOrder (CommandMenu.items cfg)).actionFunctions k
          = some (MenuFunction.openPortal p))
        ↔ ∃ p : String, MenuFunction.openPortal p
            ∈ (CommandMenu.items cfg).map (fun q => q.2) := by
      constructor
      · rintro ⟨k, p, h⟩
        exact ⟨p, (addedInOrder_function_iff _ _).mp ⟨k, h⟩⟩
      · rintro ⟨p, h⟩
        obtain ⟨k, hk⟩ := (addedInOrder_function_iff _ _).mpr h
        exact ⟨k, p, hk⟩
    rw [hswap, commandMenu_items_functions]
    obtain ⟨wt, ww, pk, nc, sh, fo, lp, np, li⟩ := cfg
    cases pk <;> cases nc <;> cases fo <;> cases li <;> cases lp <;> cases np <;> simp
  refine ⟨hclose, hopen, ?_, ?_, ?_, ?_, ?_⟩
  · rw [hclose, hopen]
    rintro ⟨h1, h2, -⟩
    rw [h2] at h1
    cases h1
  · intro k f _ hcall
    exact portalSave_only_in_openPortal f hcall
  · intro hload k f hget hcall
    obtain ⟨p, rfl⟩ := portalSave_only_in_openPortal f hcall
    have h2 := hopen.mp ⟨k, p, hget⟩
    rw [h2.1] at hload
    cases hload
  · intro p hp
    apply (addedInOrder_item_iff _ _ _).mpr
    obtain ⟨wt, ww, pk, nc, sh, fo, lp, np, li⟩ := cfg
    cases hp
    cases pk <;> cases nc <;> cases fo <;> cases li <;> simp [CommandMenu.items]
  · intro p hl hp
    apply (addedInOrder_item_iff _ _ _).mpr
    obtain ⟨wt, ww, pk, nc, sh, fo, lp, np, li⟩ := cfg
    cases hl
    cases hp
    cases pk <;> cases nc <;> cases fo <;> cases li <;> simp [CommandMenu.items]

theorem commandMenu_portal_single_slot_witness :
    (⟨false, 80, false, false, true, false, some "/tmp/x.go:3", some "/tmp/y.go:9",
        false⟩ : MenuConfig).loadPortal.isSome = true ∧
    ∃ a, CommandMenu.actions
        ⟨false, 80, false, false, true, false, some "/tmp/x.go:3", some "/tmp/y.go:9", false⟩
          = some a ∧
      GoMap.get a.actionTitles 6 = some "Close portal at /tmp/x.go:3" ∧
      GoMap.get a.actionFunctions 6 = some MenuFunction.closePortal ∧
      ∀ (k : Int) (f : MenuFunction), GoMap.get a.actionFunctions k = some f →
        Call.PortalSave ∉ f.calls := by
  obtain ⟨a, ha, -, -, -, -, hsave, -, -⟩ := commandMenu_portal_single_slot
    ⟨false, 80, false, false, true, false, some "/tmp/x.go:3", some "/tmp/y.go:9", false⟩
  refine ⟨rfl, a, ha, ?_, ?_, hsave rfl⟩
  · have h : some a = some (addedInOrder (CommandMenu.items
        ⟨false, 80, false, false, true, false, some "/tmp/x.go:3", some "/tmp/y.go:9",
          false⟩)) := by
      rw [← ha]
      exact commandMenu_actions_eq _
    cases h
    decide
  · have h : some a = some (addedInOrder (CommandMenu.items
        ⟨false, 80, false, false, true, false, some "/tmp/x.go:3", some "/tmp/y.go:9",
          false⟩)) := by
      rw [← ha]
      exact commandMenu_actions_eq _
    cases h
    decide

/-- C14, evaluated on the code: in the menu of command.go, whatever the
configuration, key 2 holds "Word wrap at N", whose function calls
WrapAllLinesAt with no undo.Snapshot before it; key 3 holds "Sort the list of
strings on the current line", whose function calls undo.Snapshot before
SortStrings; key 4 holds "Insert "include.txt" at the current line", whose
function calls InsertFile with no undo.Snapshot before it. -/
theorem commandMenu_initial_actions_snapshot (cfg : MenuConfig) :
    ∃ a, CommandMenu.actions cfg = some a ∧
      GoMap.get a.actionTitles 2 = some ("Word wrap at " ++ toString cfg.wrapWidth) ∧
      GoMap.get a.actionFunctions 2 = some MenuFunction.wordWrap ∧
      snapshotBefore Call.WrapAllLinesAt MenuFunction.wordWrap.calls = false ∧
      GoMap.get a.actionTitles 3 = some "Sort the list of strings on the current line" ∧
      GoMap.get a.actionFunctions 3 = some MenuFunction.sortStrings ∧
      snapshotBefore Call.SortStrings MenuFunction.sortStrings.calls = true ∧
      GoMap.get a.actionTitles 4 = some "Insert \"include.txt\" at the current line" ∧
      GoMap.get a.actionFunctions 4 = some MenuFunction.insertFile ∧
      snapshotBefore Call.InsertFile MenuFunction.insertFile.calls = false := by
  refine ⟨_, commandMenu_actions_eq cfg, ?_⟩
  obtain ⟨-, -, ht, hf⟩ := addedInOrder_spec (CommandMenu.items cfg)
  have hlen : (5 : Int) ≤ (CommandMenu.items cfg).length := by
    simp [CommandMenu.items]
    omega
  have h2 : (CommandMenu.items cfg)[2]? = some
      ("Word wrap at " ++ toString cfg.wrapWidth, MenuFunction.wordWrap) := by
    simp [CommandMenu.items]
  have h3 : (CommandMenu.items cfg)[3]? = some
      ("Sort the list of strings on the current line", MenuFunction.sortStrings) := by
    simp [CommandMenu.items]
  have h4 : (CommandMenu.items cfg)[4]? = some
      ("Insert \"include.txt\" at the current line", MenuFunction.insertFile) := by
    simp [CommandMenu.items]
  refine ⟨?_, ?_, rfl, ?_, ?_, rfl, ?_, ?_, rfl⟩
  · rw [ht 2, if_pos (by omega)]
    simp [h2]
  · rw [hf 2, if_pos (by omega)]
    simp [h2]
  · rw [ht 3, if_pos (by omega)]
    simp [h3]
  · rw [hf 3, if_pos (by omega)]
    simp [h3]
  · rw [ht 4, if_pos (by omega)]
    simp [h4]
  · rw [hf 4, if_pos (by omega)]
    simp [h4]

/-! ## Claim C19: the end of CommandMenu -/

/-- C19: when the menu returns a negative selection, CommandMenu of command.go
and of v2/cmenu.go perform no registered function (what they leave does not
depend on the registered actions), leave the lines as they were and return
that negative value; when the selection is not negative and a function is
registered under it, they perform that function, once, and return the
selection. -/
theorem commandMenu_cancel_performs_nothing (adjustCursor : MenuState → MenuState)
    (actions : Actions (MenuState → MenuState)) (selected : Int) (e : MenuState) :
    (selected < 0 →
      CommandMenu.afterMenu actions selected e
        = some ⟨{ e with redraw := false }, some "No action taken", selected⟩ ∧
      CommandMenuV2.afterMenu adjustCursor actions selected e
        = some ⟨{ e with redraw := true, redrawCursor := true }, none, selected⟩ ∧
      (CommandMenu.afterMenu actions selected e).map (fun r => r.editor.lines)
        = some e.lines ∧
      (CommandMenuV2.afterMenu adjustCursor actions selected e).map
        (fun r => r.editor.lines) = some e.lines) ∧
    (0 ≤ selected → ∀ f : MenuState → MenuState,
      GoMap.get actions.actionFunctions selected = some f →
        CommandMenu.afterMenu actions selected e
          = some ⟨{ f e with redraw := true, redrawCursor := true }, none, selected⟩ ∧
        CommandMenuV2.afterMenu adjustCursor actions selected e
          = some ⟨{ adjustCursor (f e) with redraw := true, redrawCursor := true },
              none, selected⟩) := by
  constructor
  · intro hneg
    simp [CommandMenu.afterMenu, CommandMenuV2.afterMenu, hneg]
  · intro hpos f hf
    have hnot : ¬ selected < 0 := not_lt.mpr hpos
    simp [CommandMenu.afterMenu, CommandMenuV2.afterMenu, hnot, Actions.Perform, hf]

theorem commandMenu_cancel_performs_nothing_witness :
    ((-1 : Int) < 0 ∧
      CommandMenu.afterMenu
          (addedInOrder [("Delete the rest of the file", deleteRestOfFile (fun m => m))])
          (-1) (fiveLines 2)
        = some ⟨{ fiveLines 2 with redraw := false }, some "No action taken", -1⟩) ∧
    ((0 : Int) ≤ 0 ∧
      GoMap.get (addedInOrder
          [("Delete the rest of the file", deleteRestOfFile (fun m => m))]).actionFunctions 0
        = some (deleteRestOfFile (fun m => m)) ∧
      CommandMenuV2.afterMenu (fun s => s)
          (addedInOrder [("Delete the rest of the file", deleteRestOfFile (fun m => m))])
          0 (fiveLines 2)
        = some ⟨{ deleteRestOfFile (fun m => m) (fiveLines 2) with
                    redraw := true, redrawCursor := true }, none, 0⟩) :=
  ⟨⟨by decide,
      ((commandMenu_cancel_performs_nothing (fun s => s)
        (addedInOrder [("Delete the rest of the file", deleteRestOfFile (fun m => m))])
        (-1) (fiveLines 2)).1 (by decide)).1⟩,
    ⟨by decide, rfl,
      ((commandMenu_cancel_performs_nothing (fun s => s)
        (addedInOrder [("Delete the rest of the file", deleteRestOfFile (fun m => m))])
        0 (fiveLines 2)).2 (by decide) (deleteRestOfFile (fun m => m)) rfl).2⟩⟩

/-! ## Claim C20: the menu widget -/

/-- C20: for a widget with h menu items, h at least 1 (and a `uint` value),
and the highlight on a row y below h, Down sets y to (y + 1) mod h and Up sets
y to (y + h - 1) mod h; both return true and record the row of before in
oldy. -/
theorem menuWidget_up_down_wrap_around (m : MenuWidget) (c : Option Canvas)
    (hh : 1 ≤ m.h) (hfit : m.h < uintSize) (hy : m.y < m.h) :
    (m.Down c).1.y = (m.y + 1) % m.h ∧ (m.Up c).1.y = (m.y + m.h - 1) % m.h ∧
    (m.Down c).2 = true ∧ (m.Up c).2 = true ∧
    (m.Down c).1.oldy = m.y ∧ (m.Up c).1.oldy = m.y := by
  simp only [uintSize] at hfit
  refine ⟨?_, ?_, rfl, rfl, ?_, ?_⟩
  · have h1 : (m.y + 1) % 18446744073709551616 = m.y + 1 := by omega
    simp only [MenuWidget.Down, uintSize, h1]
    by_cases hlast : m.y + 1 ≥ m.h
    · have : m.y + 1 = m.h := by omega
      rw [if_pos hlast, this, Nat.mod_self]
    · rw [if_neg hlast, Nat.mod_eq_of_lt (by omega)]
  · simp only [MenuWidget.Up, uintSize]
    by_cases h0 : m.y ≤ 0
    · have hy0 : m.y = 0 := by omega
      have h1 : (m.h + 18446744073709551616 - 1) % 18446744073709551616 = m.h - 1 := by omega
      have h3 : (m.h - 1) % m.h = m.h - 1 := Nat.mod_eq_of_lt (by omega)
      rw [if_pos h0, hy0, Nat.zero_add, h3]
      exact h1
    · have h1 : (m.y + 18446744073709551616 - 1) % 18446744073709551616 = m.y - 1 := by omega
      have h2 : m.y + m.h - 1 = (m.y - 1) + m.h := by omega
      have h3 : (m.y - 1) % m.h = m.y - 1 := Nat.mod_eq_of_lt (by omega)
      rw [if_neg h0, h2, Nat.add_mod_right, h3]
      exact h1
  · simp only [MenuWidget.Down]
    split_ifs <;> rfl
  · simp only [MenuWidget.Up]
    split_ifs <;> rfl

theorem menuWidget_up_down_wrap_around_witness :
    1 ≤ (threeChoices 2).h ∧ (threeChoices 2).h < uintSize ∧
    (threeChoices 2).y < (threeChoices 2).h ∧
    (((threeChoices 2).Down none).1.y = ((threeChoices 2).y + 1) % (threeChoices 2).h ∧
      ((threeChoices 2).Up none).1.y
        = ((threeChoices 2).y + (threeChoices 2).h - 1) % (threeChoices 2).h ∧
      ((threeChoices 2).Down none).2 = true ∧ ((threeChoices 2).Up none).2 = true ∧
      ((threeChoices 2).Down none).1.oldy = (threeChoices 2).y ∧
      ((threeChoices 2).Up none).1.oldy = (threeChoices 2).y) :=
  ⟨by decide, by decide, by decide,
    menuWidget_up_down_wrap_around (threeChoices 2) none (by decide) (by decide) (by decide)⟩

/-! ## Claim C21: selecting an index of the menu widget -/

/-- The height of a new widget is its number of choices. -/
theorem newMenuWidget_h (title : String) (choices : List String)
    (canvasWidth canvasHeight : Nat) (extraDashes : Bool)
    (hlen : choices.length < uintSize) :
    (NewMenuWidget title choices canvasWidth canvasHeight extraDashes).h = choices.length := by
  simp only [uintSize] at hlen
  simp only [NewMenuWidget, intToUint]
  omega

/-- C21: SelectIndex(n) returns false exactly when n is at least h, and then
leaves the widget (so y, oldy and selected) as it was; for n below h it returns
true, sets y to n and oldy to the y of before. SelectFirst is SelectIndex(0):
it returns false exactly when h is 0, which for a widget made by NewMenuWidget
is when there are no choices. -/
theorem selectIndex_false_iff_out_of_range (m : MenuWidget) (n : Nat) :
    ((m.SelectIndex n).2 = false ↔ n ≥ m.h) ∧
    (n ≥ m.h → (m.SelectIndex n).1 = m ∧ (m.SelectIndex n).1.y = m.y ∧
      (m.SelectIndex n).1.oldy = m.oldy ∧ (m.SelectIndex n).1.selected = m.selected) ∧
    (n < m.h → (m.SelectIndex n).2 = true ∧ (m.SelectIndex n).1.y = n ∧
      (m.SelectIndex n).1.oldy = m.y ∧ (m.SelectIndex n).1.selected = m.selected) ∧
    m.SelectFirst = m.SelectIndex 0 ∧
    ((m.SelectFirst).2 = false ↔ m.h = 0) ∧
    (∀ (title : String) (choices : List String) (canvasWidth canvasHeight : Nat)
      (extraDashes : Bool), choices.length < uintSize →
      (((NewMenuWidget title choices canvasWidth canvasHeight extraDashes).SelectFirst).2 = false
        ↔ choices = [])) := by
  have hfirst : ∀ w : MenuWidget, (w.SelectFirst).2 = false ↔ w.h = 0 := by
    intro w
    simp only [MenuWidget.SelectFirst, MenuWidget.SelectIndex]
    split_ifs with h0
    · simp only [true_iff]
      omega
    · simp only [Bool.true_eq_false, false_iff]
      omega
  refine ⟨?_, ?_, ?_, rfl, hfirst m, ?_⟩
  · simp only [MenuWidget.SelectIndex]
    split_ifs with hn
    · simp [hn]
    · simp [hn]
  · intro hn
    simp [MenuWidget.SelectIndex, hn]
  · intro hn
    have hn2 : ¬ n ≥ m.h := by omega
    simp [MenuWidget.SelectIndex, hn2]
  · intro title choices canvasWidth canvasHeight extraDashes hlen
    rw [hfirst, newMenuWidget_h title choices canvasWidth canvasHeight extraDashes hlen]
    exact List.length_eq_zero

theorem selectIndex_false_iff_out_of_range_witness :
    ((3 : Nat) ≥ (threeChoices 1).h ∧ ((threeChoices 1).SelectIndex 3).1.y = 1) ∧
    ((2 : Nat) < (threeChoices 1).h ∧ ((threeChoices 1).SelectIndex 2).2 = true ∧
      ((threeChoices 1).SelectIndex 2).1.y = 2 ∧ ((threeChoices 1).SelectIndex 2).1.oldy = 1) ∧
    (([] : List String).length < uintSize ∧
      ((NewMenuWidget "Select an action" [] 80 25 false).SelectFirst).2 = false) :=
  ⟨⟨by decide,
      ((selectIndex_false_iff_out_of_range (threeChoices 1) 3).2.1 (by decide)).2.1⟩,
    ⟨by decide,
      ((selectIndex_false_iff_out_of_range (threeChoices 1) 2).2.2.1 (by decide)).1,
      ((selectIndex_false_iff_out_of_range (threeChoices 1) 2).2.2.1 (by decide)).2.1,
      ((selectIndex_false_iff_out_of_range (threeChoices 1) 2).2.2.1 (by decide)).2.2.1⟩,
    ⟨by decide,
      ((selectIndex_false_iff_out_of_range (threeChoices 1) 0).2.2.2.2.2
        "Select an action" [] 80 25 false (by decide)).mpr rfl⟩⟩

/-! ## Claim C22: paging of the scrollable text box -/

/-- A paging call keeps the pages and keeps the current page inside them. -/
theorem pageCall_run_inv (stb : ScrollableTextBox) (call : PageCall)
    (h : 0 ≤ stb.CurrentPage ∧ stb.CurrentPage < stb.Pages.length) :
    (call.run stb).Pages = stb.Pages ∧ (call.run stb).box = stb.box ∧
    0 ≤ (call.run stb).CurrentPage ∧
    (call.run stb).CurrentPage < (call.run stb).Pages.length := by
  cases call
  · simp only [PageCall.run, ScrollableTextBox.NextPage]
    split_ifs <;> simp <;> omega
  · simp only [PageCall.run, ScrollableTextBox.PrevPage]
    split_ifs <;> simp <;> omega

/-- A sequence of paging calls keeps the pages and keeps the current page
inside them. -/
theorem runPageCalls_inv (calls : List PageCall) (stb : ScrollableTextBox)
    (h : 0 ≤ stb.CurrentPage ∧ stb.CurrentPage < stb.Pages.length) :
    (runPageCalls calls stb).Pages = stb.Pages ∧
    0 ≤ (runPageCalls calls stb).CurrentPage ∧
    (runPageCalls calls stb).CurrentPage < (runPageCalls calls stb).Pages.length := by
  induction calls generalizing stb with
  | nil => exact ⟨rfl, h⟩
  | cons call rest ih =>
    obtain ⟨hp, -, h0, h1⟩ := pageCall_run_inv stb call h
    obtain ⟨ip, i0, i1⟩ := ih (call.run stb) ⟨h0, h1⟩
    exact ⟨by rw [← hp]; exact ip, i0, i1⟩

/-- Inside the pages the index expression `Pages[CurrentPage]` gives a page
and DrawScrollableText draws it. -/
theorem drawScrollableText_in_range (e : Editor) (stb : ScrollableTextBox)
    (h : 0 ≤ stb.CurrentPage ∧ stb.CurrentPage < stb.Pages.length) :
    ∃ page, goIndex stb.Pages stb.CurrentPage = some page ∧
      e.DrawScrollableText stb = some (page.Lines.enum.filterMap (fun p =>
        if uintToInt (intToUint (stb.box.Y + p.1)) < stb.box.Y + stb.box.H then
          some ⟨intToUint stb.box.X, intToUint (stb.box.Y + p.1), p.2⟩
        else none)) := by
  have hlt : stb.CurrentPage.toNat < stb.Pages.length := by omega
  have hidx : goIndex stb.Pages stb.CurrentPage = some stb.Pages[stb.CurrentPage.toNat] := by
    simp only [goIndex, if_neg (not_lt.mpr h.1)]
    exact List.getElem?_eq_getElem hlt
  refine ⟨stb.Pages[stb.CurrentPage.toNat], hidx, ?_⟩
  have hguard : ¬ (stb.CurrentPage ≥ stb.Pages.length ∨ stb.CurrentPage < 0) := by omega
  simp only [Editor.DrawScrollableText, if_neg hguard, hidx]

/-- C22: for a box created by NewScrollableTextBox with at least one page and
every sequence of NextPage and PrevPage calls, the box reached holds the same
pages and 0 <= CurrentPage < len(Pages), so that `Pages[CurrentPage]` is a
page and DrawScrollableText does not panic; from there NextPage adds one to
CurrentPage unless it is the last page, where it changes nothing, and PrevPage
subtracts one unless it is 0, where it changes nothing. -/
theorem scrollableTextBox_paging_in_bounds (pages : List Page) (hpages : pages ≠ [])
    (calls : List PageCall) (e : Editor) :
    (runPageCalls calls (NewScrollableTextBox pages)).Pages = pages ∧
    0 ≤ (runPageCalls calls (NewScrollableTextBox pages)).CurrentPage ∧
    (runPageCalls calls (NewScrollableTextBox pages)).CurrentPage < pages.length ∧
    (∃ page, goIndex (runPageCalls calls (NewScrollableTextBox pages)).Pages
        (runPageCalls calls (NewScrollableTextBox pages)).CurrentPage = some page) ∧
    (∃ writes, e.DrawScrollableText (runPageCalls calls (NewScrollableTextBox pages))
        = some writes) ∧
    (runPageCalls calls (NewScrollableTextBox pages)).NextPage
      = (if (runPageCalls calls (NewScrollableTextBox pages)).CurrentPage = pages.length - 1
          then runPageCalls calls (NewScrollableTextBox pages)
          else { runPageCalls calls (NewScrollableTextBox pages) with
            CurrentPage := (runPageCalls calls (NewScrollableTextBox pages)).CurrentPage + 1 }) ∧
    (runPageCalls calls (NewScrollableTextBox pages)).PrevPage
      = (if (runPageCalls calls (NewScrollableTextBox pages)).CurrentPage = 0
          then runPageCalls calls (NewScrollableTextBox pages)
          else { runPageCalls calls (NewScrollableTextBox pages) with
            CurrentPage := (runPageCalls calls (NewScrollableTextBox pages)).CurrentPage - 1 }) := by
  have hpos : 0 < pages.length := List.length_pos.mpr hpages
  have hinit : 0 ≤ (NewScrollableTextBox pages).CurrentPage ∧
      (NewScrollableTextBox pages).CurrentPage < (NewScrollableTextBox pages).Pages.length := by
    simp only [NewScrollableTextBox]
    omega
  obtain ⟨hp, h0, h1⟩ := runPageCalls_inv calls (NewScrollableTextBox pages) hinit
  have hp2 : (runPageCalls calls (NewScrollableTextBox pages)).Pages = pages := hp
  obtain ⟨page, hidx, hdraw⟩ := drawScrollableText_in_range e
    (runPageCalls calls (NewScrollableTextBox pages)) ⟨h0, h1⟩
  rw [hp2] at h1
  refine ⟨hp2, h0, h1, ⟨page, hidx⟩, ⟨_, hdraw⟩, ?_, ?_⟩
  · simp only [ScrollableTextBox.NextPage, hp2]
    split_ifs <;> first | rfl | omega
  · simp only [ScrollableTextBox.PrevPage]
    split_ifs <;> first | rfl | omega

theorem scrollableTextBox_paging_in_bounds_witness :
    [Page.mk ["one"], Page.mk ["two"]] ≠ [] ∧
    (runPageCalls [PageCall.NextPage, PageCall.NextPage, PageCall.PrevPage, PageCall.PrevPage,
        PageCall.PrevPage, PageCall.NextPage]
      (NewScrollableTextBox [Page.mk ["one"], Page.mk ["two"]])).CurrentPage = 1 ∧
    (runPageCalls [PageCall.NextPage, PageCall.NextPage, PageCall.PrevPage, PageCall.PrevPage,
        PageCall.PrevPage, PageCall.NextPage]
      (NewScrollableTextBox [Page.mk ["one"], Page.mk ["two"]])).CurrentPage
        < ([Page.mk ["one"], Page.mk ["two"]] : List Page).length :=
  ⟨by simp, by decide,
    (scrollableTextBox_paging_in_bounds [Page.mk ["one"], Page.mk ["two"]] (by simp)
      [PageCall.NextPage, PageCall.NextPage, PageCall.PrevPage, PageCall.PrevPage,
        PageCall.PrevPage, PageCall.NextPage] (editorAt 0 0 1 false)).2.2.1⟩

/-! ## Claims C24 and C25: the strings of the editor modes -/

/-- The string of a mode from 0 to 62 is not the question mark. -/
theorem mode_string_in_range (m : Int) (h : 0 ≤ m ∧ m ≤ 62) :
    mode.Mode.String m ≠ "?" := by
  obtain ⟨h0, h1⟩ := h
  interval_cases m <;> decide

/-- The string of a mode below 0 or above 62 is the question mark. -/
theorem mode_string_out_of_range (m : Int) (h : m < 0 ∨ 62 < m) :
    mode.Mode.String m = "?" := by
  have hne : ∀ k : Int, 0 ≤ k → k ≤ 62 → ¬ m = k := fun k h0 h1 => by omega
  unfold mode.Mode.String
  rw [if_neg (hne mode.Blank (by decide) (by decide)),
    if_neg (hne mode.Teal (by decide) (by decide)),
    if_neg (hne mode.Git (by decide) (by decide)),
    if_neg (hne mode.Markdown (by decide) (by decide)),
    if_neg (hne mode.Makefile (by decide) (by decide)),
    if_neg (hne mode.Shell (by decide) (by decide)),
    if_neg (hne mode.Config (by decide) (by decide)),
    if_neg (hne mode.Assembly (by decide) (by decide)),
    if_neg (hne mode.GoAssembly (by decide) (by decide)),
    if_neg (hne mode.Go (by decide) (by decide)),
    if_neg (hne mode.Haskell (by decide) (by decide)),
    if_neg (hne mode.OCaml (by decide) (by decide)),
    if_neg (hne mode.StandardML (by decide) (by decide)),
    if_neg (hne mode.Python (by decide) (by decide)),
    if_neg (hne mode.Text (by decide) (by decide)),
    if_neg (hne mode.CMake (by decide) (by decide)),
    if_neg (hne mode.Vim (by decide) (by decide)),
    if_neg (hne mode.Clojure (by decide) (by decide)),
    if_neg (hne mode.Lisp (by decide) (by decide)),
    if_neg (hne mode.Zig (by decide) (by decide)),
    if_neg (hne mode.Kotlin (by decide) (by decide)),
    if_neg (hne mode.Java (by decide) (by decide)),
    if_neg (hne mode.Gradle (by decide) (by decide)),
    if_neg (hne mode.HIDL (by decide) (by decide)),
    if_neg (hne mode.AIDL (by decide) (by decide)),
    if_neg (hne mode.SQL (by decide) (by decide)), if_neg (hne mode.Oak (by decide) (by decide)),
    if_neg (hne mode.Rust (by decide) (by decide)),
    if_neg (hne mode.Lua (by decide) (by decide)),
    if_neg (hne mode.Crystal (by decide) (by decide)),
    if_neg (hne mode.Erlang (by decide) (by decide)),
    if_neg (hne mode.Nim (by decide) (by decide)),
    if_neg (hne mode.ObjectPascal (by decide) (by decide)),
    if_neg (hne mode.Bat (by decide) (by decide)), if_neg (hne mode.Cpp (by decide) (by decide)),
    if_neg (hne mode.C (by decide) (by decide)), if_neg (hne mode.Ada (by decide) (by decide)),
    if_neg (hne mode.HTML (by decide) (by decide)),
    if_neg (hne mode.Odin (by decide) (by decide)),
    if_neg (hne mode.Hare (by decide) (by decide)),
    if_neg (hne mode.Jakt (by decide) (by decide)),
    if_neg (hne mode.Perl (by decide) (by decide)),
    if_neg (hne mode.Prolog (by decide) (by decide)),
    if_neg (hne mode.XML (by decide) (by decide)),
    if_neg (hne mode.PolicyLanguage (by decide) (by decide)),
    if_neg (hne mode.Nroff (by decide) (by decide)),
    if_neg (hne mode.Scala (by decide) (by decide)),
    if_neg (hne mode.JSON (by decide) (by decide)),
    if_neg (hne mode.Battlestar (by decide) (by decide)),
    if_neg (hne mode.CS (by decide) (by decide)),
    if_neg (hne mode.TypeScript (by decide) (by decide)),
    if_neg (hne mode.JavaScript (by decide) (by decide)),
    if_neg (hne mode.ManPage (by decide) (by decide)),
    if_neg (hne mode.Amber (by decide) (by decide)),
    if_neg (hne mode.Bazel (by decide) (by decide)), if_neg (hne mode.D (by decide) (by decide)),
    if_neg (hne mode.V (by decide) (by decide)), if_neg (hne mode.M4 (by decide) (by decide)),
    if_neg (hne mode.Agda (by decide) (by decide)),
    if_neg (hne mode.Basic (by decide) (by decide)),
    if_neg (hne mode.Log (by decide) (by decide)),
    if_neg (hne mode.Email (by decide) (by decide)),
    if_neg (hne mode.Doc (by decide) (by decide))]

/-- C24: every mode has a string: the constants of the mode package are
Blank = 0 up to Email = 62; for every Mode value from 0 to 62 String returns a
string other than "?", and for every value below 0 or above 62 it returns
"?". -/
theorem mode_string_every_mode_has_a_string (m : Int) :
    mode.Blank = 0 ∧ mode.Email = 62 ∧
    ((0 ≤ m ∧ m ≤ 62) → mode.Mode.String m ≠ "?") ∧
    ((m < 0 ∨ 62 < m) → mode.Mode.String m = "?") :=
  ⟨rfl, rfl, mode_string_in_range m, mode_string_out_of_range m⟩

theorem mode_string_every_mode_has_a_string_witness :
    (((0 : Int) ≤ mode.Teal ∧ mode.Teal ≤ 62) ∧ mode.Mode.String mode.Teal ≠ "?") ∧
    (((-1 : Int) < 0 ∨ 62 < (-1 : Int)) ∧ mode.Mode.String (-1) = "?") :=
  ⟨⟨by decide, (mode_string_every_mode_has_a_string mode.Teal).2.2.1 (by decide)⟩,
    ⟨by decide, (mode_string_every_mode_has_a_string (-1)).2.2.2 (by decide)⟩⟩

/-- C25, evaluated on the code: String returns "Git" for the mode Git, which
has an uppercase letter; the string String returns has no uppercase letter
only for Blank (the string "-") and for the values below 0 or above 62 (the
string "?"). -/
theorem mode_string_has_uppercase (m : Int) :
    mode.Mode.String mode.Git = "Git" ∧
    mode.hasUpper (mode.Mode.String mode.Git) = true ∧
    (mode.hasUpper (mode.Mode.String m) = false ↔ (m = mode.Blank ∨ m < 0 ∨ 62 < m)) := by
  refine ⟨by decide, by decide, ?_⟩
  by_cases hr : 0 ≤ m ∧ m ≤ 62
  · obtain ⟨h0, h1⟩ := hr
    interval_cases m <;> decide
  · have hout : m < 0 ∨ 62 < m := by omega
    rw [mode_string_out_of_range m hout]
    constructor
    · intro _
      exact Or.inr hout
    · intro _
      decide

/-! ## Claim C26: the minimal jump of GoTo -/

/-- C26: for a target d that is a line of the buffer (which so has at least
one line), differs from the current line, lies outside the window
[offsetY, offsetY + h) and is at least h, GoTo keeps the screen row sy of
before and sets offsetY to d minus that row; the condition of the minimal jump,
previous sy + (d - previous sy) < Len, holds there, so what scrollTo returns is
the placement of that branch and not the fallback. -/
theorem goTo_minimal_jump_reuses_row (e : Editor) (d : Int) (c : Option Canvas)
    (status : Option StatusBar)
    (hin : 0 ≤ d ∧ d < e.Len) (hne : d ≠ e.DataY)
    (hout : ¬ (e.pos.offsetY ≤ d ∧ d < e.pos.offsetY + termHeight c))
    (hbig : termHeight c ≤ d) :
    (e.GoTo d c status).editor.pos.sy = e.pos.sy ∧
    (e.GoTo d c status).editor.pos.offsetY = d - e.pos.sy ∧
    e.pos.sy + (d - e.pos.sy) < e.Len ∧
    scrollTo e (boundsCheck e d).1 (boundsCheck e d).2 (termHeight c)
      = { e.pos with sy := e.pos.sy, offsetY := d - e.pos.sy } := by
  obtain ⟨ho, hs, -, -, -⟩ := goTo_of_ne e d c status hne
  have hb : boundsCheck e d = (d, false) := by
    simp only [boundsCheck]
    rw [if_neg (by omega), if_neg (by omega)]
  have hsc : scrollTo e d false (termHeight c)
      = { e.pos with sy := e.pos.sy, offsetY := d - e.pos.sy } := by
    simp only [scrollTo]
    rw [if_neg (by omega), if_neg (by omega)]
    simp only [Bool.false_eq_true, if_false]
    rw [if_pos (by omega)]
  rw [hb] at ho hs
  simp only at ho hs
  rw [hsc] at ho hs
  rw [hb]
  exact ⟨hs, ho, by omega, hsc⟩

theorem goTo_minimal_jump_reuses_row_witness :
    ((0 ≤ (70 : Int) ∧ 70 < (editorAt 40 3 100 false).Len) ∧
      (70 : Int) ≠ (editorAt 40 3 100 false).DataY ∧
      ¬ ((editorAt 40 3 100 false).pos.offsetY ≤ 70 ∧
        70 < (editorAt 40 3 100 false).pos.offsetY + termHeight (some ⟨10⟩)) ∧
      termHeight (some ⟨10⟩) ≤ 70) ∧
    ((editorAt 40 3 100 false).GoTo 70 (some ⟨10⟩) none).editor.pos.sy = 3 ∧
    ((editorAt 40 3 100 false).GoTo 70 (some ⟨10⟩) none).editor.pos.offsetY = 70 - 3 :=
  ⟨⟨by decide, by decide, by decide, by decide⟩,
    (goTo_minimal_jump_reuses_row (editorAt 40 3 100 false) 70 (some ⟨10⟩) none
      (by decide) (by decide) (by decide) (by decide)).1,
    (goTo_minimal_jump_reuses_row (editorAt 40 3 100 false) 70 (some ⟨10⟩) none
      (by decide) (by decide) (by decide) (by decide)).2.1⟩

/-! ## Claim C23: the last command -/

/-- Contains is true exactly for an infix. -/
theorem contains_iff_occurs (s substr : String) :
    Contains s substr = true ↔ substr.data <:+: s.data := by
  simp only [Contains, List.any_eq_true, List.mem_tails, List.isPrefixOf_iff_prefix]
  rw [List.infix_iff_prefix_suffix]
  constructor
  · rintro ⟨t, hts, hpt⟩
    exact ⟨t, hpt, hts⟩
  · rintro ⟨t, hpt, hts⟩
    exact ⟨t, hts, hpt⟩

/-- Dropping white space at the start of a text that ends in one more white
space character. -/
theorem dropWhile_isSpace_concat (l : List Char) (ch : Char) (hch : isSpace ch = true) :
    (l ++ [ch]).dropWhile isSpace
      = if l.dropWhile isSpace = [] then [] else l.dropWhile isSpace ++ [ch] := by
  induction l with
  | nil => simp [List.dropWhile, hch]
  | cons x xs ih =>
    by_cases hx : isSpace x = true
    · simp only [List.cons_append, List.dropWhile_cons, hx, if_true]
      exact ih
    · simp [List.dropWhile_cons, hx]

/-- TrimSpace does not see one more white space character at the end. -/
theorem trimSpace_concat (s : String) (ch : Char) (hch : isSpace ch = true) :
    TrimSpace (s ++ String.mk [ch]) = TrimSpace s := by
  simp only [TrimSpace, String.data_append, dropWhile_isSpace_concat s.data ch hch]
  split_ifs with hnil
  · rw [hnil]
  · rw [List.rdropWhile_concat_pos isSpace _ ch hch]

/-- What TrimSpace returns is a part of its argument. -/
theorem trimSpace_part (s : String) : (TrimSpace s).data <:+: s.data := by
  simp only [TrimSpace]
  exact List.IsInfix.trans (List.rdropWhile_prefix isSpace _).isInfix
    (List.dropWhile_suffix isSpace).isInfix

/-- A text in which "/tmp/o." does not occur is left as it is. -/
theorem removeTmpSuffix_of_not_infix (l : List Char)
    (h : ¬ "/tmp/o.".data <:+: l) : removeTmpSuffix l = l := by
  induction l with
  | nil => rfl
  | cons x xs ih =>
    have hpre : ¬ "/tmp/o.".data.isPrefixOf (x :: xs) = true := by
      intro hp
      exact h (List.isPrefixOf_iff_prefix.mp hp).isInfix
    have hxs : ¬ "/tmp/o.".data <:+: xs := fun hi =>
      h (List.IsInfix.trans hi (List.suffix_cons x xs).isInfix)
    simp only [removeTmpSuffix, hpre, Bool.false_and, Bool.false_eq_true, if_false]
    rw [ih hxs]

/-- The first line of a script that starts with the line "#!/bin/sh". -/
theorem splitFirstLine_shebang (t : String) :
    splitFirstLine ("#!/bin/sh\n" ++ t) = ["#!/bin/sh", t] := by
  have hdata : ("#!/bin/sh\n" ++ t).data
      = '#' :: '!' :: '/' :: 'b' :: 'i' :: 'n' :: '/' :: 's' :: 'h' :: '\n' :: t.data := by
    rw [String.data_append]
    rfl
  simp only [splitFirstLine, hdata]
  simp [List.dropWhile, List.takeWhile]

/-- C23: for a command with non-empty Args, getCommand returns cmd.Path, a
space and the Args after the first joined by spaces, with a leading
"/usr/bin/sh -c " removed; saveCommand, when the file opens, writes the text
"#!/bin/sh", line feed, that command, line feed; and when the command does not
contain "/tmp/o.", the --last-command processing of main, reading that text,
prints the command with the white space at its start and end removed, followed
by a line feed, and ends with status 0. -/
theorem lastCommand_round_trip (cmd : Cmd) (hargs : cmd.Args ≠ []) (lastCommandFile : String) :
    ∃ command : String,
      getCommand cmd = some command ∧
      command = TrimPrefix (cmd.Path ++ " " ++ " ".intercalate cmd.Args.tail)
        "/usr/bin/sh -c " ∧
      saveCommand none cmd = GoResult.ok ("#!/bin/sh\n" ++ command ++ "\n") ∧
      (Contains command "/tmp/o." = false →
        mainLastCommand lastCommandFile (some ("#!/bin/sh\n" ++ command ++ "\n"))
          = ⟨[SysCall.ReadLastCommandFile], TrimSpace command ++ "\n", "", 0⟩) := by
  obtain ⟨path, args⟩ := cmd
  cases args with
  | nil => exact absurd rfl hargs
  | cons first rest =>
    refine ⟨TrimPrefix (path ++ " " ++ " ".intercalate rest) "/usr/bin/sh -c ", rfl, rfl, rfl, ?_⟩
    intro hno
    generalize TrimPrefix (path ++ " " ++ " ".intercalate rest) "/usr/bin/sh -c " = command
      at hno
    have hninf : ¬ "/tmp/o.".data <:+: command.data := by
      intro hi
      rw [(contains_iff_occurs command "/tmp/o.").mpr hi] at hno
      exact Bool.noConfusion hno
    have hsplit : splitFirstLine ("#!/bin/sh\n" ++ command ++ "\n")
        = ["#!/bin/sh", command ++ "\n"] := by
      rw [String.append_assoc]
      exact splitFirstLine_shebang (command ++ "\n")
    have htrim : TrimSpace (command ++ "\n") = TrimSpace command :=
      trimSpace_concat command '\n' (by decide)
    have hkeep : removeTmpSuffix (TrimSpace command).data = (TrimSpace command).data :=
      removeTmpSuffix_of_not_infix _
        (fun hi => hninf (List.IsInfix.trans hi (trimSpace_part command)))
    have hguard : ¬ ((["#!/bin/sh", command ++ "\n"] : List String).length ≠ 2 ∨
        (!HasPrefix ((["#!/bin/sh", command ++ "\n"] : List String).getD 0 "") "#") = true) := by
      rintro (h | h)
      · exact h rfl
      · have hp : HasPrefix "#!/bin/sh" "#" = true := by decide
        simp [hp] at h
    simp only [mainLastCommand, hsplit, if_neg hguard]
    simp only [List.getD_cons_succ, List.getD_cons_zero, htrim, hkeep]

theorem lastCommand_round_trip_witness :
    (⟨"/usr/bin/sh", ["sh", "-c", "go build "]⟩ : Cmd).Args ≠ [] ∧
    (∃ command : String,
      getCommand ⟨"/usr/bin/sh", ["sh", "-c", "go build "]⟩ = some command ∧
      command = TrimPrefix (("/usr/bin/sh" : String) ++ " "
        ++ " ".intercalate (["sh", "-c", "go build "] : List String).tail) "/usr/bin/sh -c " ∧
      saveCommand none ⟨"/usr/bin/sh", ["sh", "-c", "go build "]⟩
        = GoResult.ok ("#!/bin/sh\n" ++ command ++ "\n") ∧
      (Contains command "/tmp/o." = false →
        mainLastCommand "last_command.sh" (some ("#!/bin/sh\n" ++ command ++ "\n"))
          = ⟨[SysCall.ReadLastCommandFile], TrimSpace command ++ "\n", "", 0⟩)) ∧
    Contains "go build " "/tmp/o." = false ∧
    mainLastCommand "last_command.sh" (some "#!/bin/sh\ngo build \n")
      = ⟨[SysCall.ReadLastCommandFile], "go build\n", "", 0⟩ :=
  ⟨by simp,
    lastCommand_round_trip ⟨"/usr/bin/sh", ["sh", "-c", "go build "]⟩ (by simp)
      "last_command.sh",
    by decide, by decide⟩

/-! ## Claim C27: the clear-locks flag -/

/-- C27: for the clear-locks flag and every outcome of removing the lock file
and of clearing the portal: both calls are made, the lock file first; the exit
status is 1 exactly when removing the lock file failed, whatever the portal
did, and it is 0 (a normal return) exactly when removing it succeeded. -/
theorem clearLocks_exit_status (lockErr portalErr : Option String) :
    (mainClearLocks lockErr portalErr).calls = [SysCall.RemoveLockFile, SysCall.ClearPortal] ∧
    SysCall.ClearPortal ∈ (mainClearLocks lockErr portalErr).calls ∧
    ((mainClearLocks lockErr portalErr).exitCode = 1 ↔ lockErr ≠ none) ∧
    ((mainClearLocks lockErr portalErr).exitCode = 0 ↔ lockErr = none) := by
  cases lockErr <;> cases portalErr <;> simp [mainClearLocks]

end Red
